import Mathlib

/-!
Verification development for the agent-forge streaming tool-execution and
delegation engine (Go sources under `src/`).  The Go code is shallowly
embedded: pure functions become Lean functions, the channel-based streaming
is modelled as explicit lists of emitted chunks (the deterministic trace in
which the response channel is drained in production order before the error
channel is consulted), and JSON marshal/unmarshal round-trips are modelled
as the identity on the chunk structures.
-/

namespace AgentForge

/-! ## Status and type constants (src/llms/constants.go) -/

def StatusStreaming : String := "streaming"

def StatusCompleted : String := "completed"

def StatusError : String := "error"

def StatusToolCall : String := "tool-call"

def StatusToolExecuting : String := "tool-executing"

def StatusToolResult : String := "tool-result"

def TypeContent : String := "content"

def TypeToolCall : String := "tool-call"

def TypeToolExecuting : String := "tool-executing"

def TypeToolResult : String := "tool-result"

def TypeCompletion : String := "completion"

/-! ## Go dynamic values

A `map[string]any` argument map is modelled as an association list of
`GoValue`s; the variants cover the dynamic types that the tool layer's
`validateType` switch distinguishes (src/core/tool.go, unnamed/part_006). -/

inductive GoValue where
  | str (s : String)
  | num (n : Int)
  | boolean (b : Bool)
  | obj (fields : List (String × GoValue))
  | arr (elems : List GoValue)
  | null

/-- Dynamic type name of a value, abstracting Go's `%T` verb as used in the
type-mismatch error messages of `validateType`. -/
def GoValue.typeName : GoValue → String
  | .str _ => "string"
  | .num _ => "float64"
  | .boolean _ => "bool"
  | .obj _ => "map[string]interface"
  | .arr _ => "[]interface"
  | .null => "<nil>"

/-- Association-list lookup, standing for Go's `value, exists := args[name]`. -/
def lookupArg (args : List (String × GoValue)) (name : String) : Option GoValue :=
  match args with
  | [] => none
  | (k, v) :: rest => if k = name then some v else lookupArg rest name

/-! ## Tool outcome (src/tools/toolResponse.go, src/core/tool_response.go) -/

structure ToolResponse where
  success : Bool
  error : String
  data : String
deriving DecidableEq, Repr

def NewSuccessResponse (data : String) : ToolResponse :=
  { success := true, error := "", data := data }

def NewErrorResponse (errorMsg : String) : ToolResponse :=
  { success := false, error := errorMsg, data := "" }

def NewFailureResponse (errorMsg data : String) : ToolResponse :=
  { success := false, error := errorMsg, data := data }

/-! ## Declared parameters and validation
(src/core/tool.go `Tool.validateAndExtractArgs` / `validateType`, and the
textually identical copy `BaseTool.ValidateAndExtractArgs` in
unnamed/part_006). -/

/-- A declared tool parameter.  The optional custom validator returns
`some msg` for a validation error, standing for a non-nil Go `error`. -/
structure Parameter where
  name : String
  type_ : String
  required : Bool
  validator : Option (GoValue → Option String) := none

/-- Embedding of `validateType`: `none` means the value passed the check,
`some msg` is the error message.  As in the source, an `expectedType`
outside the five listed cases passes unconditionally. -/
def validateType (value : GoValue) (expectedType : String) : Option String :=
  if expectedType = "string" then
    match value with
    | .str _ => none
    | v => some ("expected string, got " ++ v.typeName)
  else if expectedType = "number" then
    match value with
    | .num _ => none
    | v => some ("expected number, got " ++ v.typeName)
  else if expectedType = "boolean" then
    match value with
    | .boolean _ => none
    | v => some ("expected boolean, got " ++ v.typeName)
  else if expectedType = "object" then
    match value with
    | .obj _ => none
    | v => some ("expected object, got " ++ v.typeName)
  else if expectedType = "array" then
    match value with
    | .arr _ => none
    | v => some ("expected array, got " ++ v.typeName)
  else none

/-- Embedding of `validateAndExtractArgs` (identical in `core.Tool` and
`tools.BaseTool`): walk the declared parameters in order, fail on the first
parameter that is required-but-absent, wrong-typed, or rejected by its
custom validator; collect the present, valid values into the `validated`
map.  `Except.error` carries the synthesized failure `ToolResponse`. -/
def validateAndExtractArgs (params : List Parameter) (args : List (String × GoValue))
    (validated : List (String × GoValue)) :
    Except ToolResponse (List (String × GoValue)) :=
  match params with
  | [] => .ok validated
  | p :: rest =>
    match lookupArg args p.name with
    | none =>
      if p.required then
        .error (NewErrorResponse ("missing required parameter: " ++ p.name))
      else
        validateAndExtractArgs rest args validated
    | some value =>
      match validateType value p.type_ with
      | some msg => .error (NewErrorResponse ("invalid type for " ++ p.name ++ ": " ++ msg))
      | none =>
        match p.validator with
        | some f =>
          match f value with
          | some msg =>
            .error (NewErrorResponse ("validation failed for " ++ p.name ++ ": " ++ msg))
          | none => validateAndExtractArgs rest args (validated ++ [(p.name, value)])
        | none => validateAndExtractArgs rest args (validated ++ [(p.name, value)])

/-- The tool-execution context (`map[string]any` in the source) is opaque to
the validation layer; its entries are never inspected by the code verified
here, so it is abstracted as an association list of dynamic values. -/
def AgentContext : Type := List (String × GoValue)

/-! ## The three tool constructors
`core.NewTool` (src/core/tool.go), `tools.NewSimpleTool` and
`tools.NewContextAwareTool` (unnamed/part_006).  All three route `Call`
through the same validation logic before invoking their handler. -/

structure Tool where
  name : String
  description : String
  advanceDescription : String
  troubleshooting : String
  parameters : List Parameter
  handler : AgentContext → List (String × GoValue) → ToolResponse

def NewTool (name description advanceDescription troubleshooting : String)
    (params : List Parameter)
    (handler : AgentContext → List (String × GoValue) → ToolResponse) : Tool :=
  { name := name, description := description, advanceDescription := advanceDescription,
    troubleshooting := troubleshooting, parameters := params, handler := handler }

/-- Embedding of `core.Tool.Call`: validate, return the synthesized failure
outcome on validation error, otherwise invoke the handler on the validated
arguments. -/
def Tool.Call (t : Tool) (agentContext : AgentContext)
    (args : List (String × GoValue)) : ToolResponse :=
  match validateAndExtractArgs t.parameters args [] with
  | .error e => e
  | .ok validated => t.handler agentContext validated

structure SimpleTool where
  name : String
  description : String
  advanceDescription : String
  troubleshooting : String
  parameters : List Parameter
  handler : List (String × GoValue) → ToolResponse

def NewSimpleTool (name description advanceDescription troubleshooting : String)
    (params : List Parameter)
    (handler : List (String × GoValue) → ToolResponse) : SimpleTool :=
  { name := name, description := description, advanceDescription := advanceDescription,
    troubleshooting := troubleshooting, parameters := params, handler := handler }

/-- Embedding of `tools.SimpleTool.Call` (unnamed/part_006). -/
def SimpleTool.Call (t : SimpleTool) (_agentContext : AgentContext)
    (args : List (String × GoValue)) : ToolResponse :=
  match validateAndExtractArgs t.parameters args [] with
  | .error e => e
  | .ok validated => t.handler validated

structure ContextAwareTool where
  name : String
  description : String
  advanceDescription : String
  troubleshooting : String
  parameters : List Parameter
  handler : AgentContext → List (String × GoValue) → ToolResponse

def NewContextAwareTool (name description advanceDescription troubleshooting : String)
    (params : List Parameter)
    (handler : AgentContext → List (String × GoValue) → ToolResponse) : ContextAwareTool :=
  { name := name, description := description, advanceDescription := advanceDescription,
    troubleshooting := troubleshooting, parameters := params, handler := handler }

/-- Embedding of `tools.ContextAwareTool.Call` (unnamed/part_006). -/
def ContextAwareTool.Call (t : ContextAwareTool) (agentContext : AgentContext)
    (args : List (String × GoValue)) : ToolResponse :=
  match validateAndExtractArgs t.parameters args [] with
  | .error e => e
  | .ok validated => t.handler agentContext validated

/-! ## Substring test, used to state "error containing …" -/

/-- Boolean prefix test on character lists. -/
def charsStartWith : List Char → List Char → Bool
  | [], _ => true
  | _ :: _, [] => false
  | a :: as, b :: bs => a = b && charsStartWith as bs

/-- Boolean substring-occurrence test on character lists. -/
def charsContain (pat : List Char) : List Char → Bool
  | [] => charsStartWith pat []
  | l@(_ :: rest) => charsStartWith pat l || charsContain pat rest

/-- `strContainsSub s pat` holds when `pat` occurs contiguously in `s`. -/
def strContainsSub (s pat : String) : Bool :=
  charsContain pat.data s.data

/-! ## Tool calls and results (src/llms, unnamed/part_003 second half) -/

structure ToolCall where
  id : String
  name : String
  arguments : List (String × GoValue)

structure ToolResult where
  toolCallID : String
  toolName : String
  success : Bool
  result : String
  error : String
deriving DecidableEq, Repr

/-! ## Streaming chunks

`llms.ChunkResponse` and the agent-level `extendedChunkResponse`
(src/agents/agent_discoverable_test.go part) share all payload fields; the
extended form adds `agentName` and `trace`.  One structure models both: a
plain `ChunkResponse` is an `ExtChunk` whose identity fields are empty, which
is exactly how JSON round-trips treat the two shapes. -/

structure ExtChunk where
  content : String := ""
  delta : String := ""
  fullContent : String := ""
  status : String := ""
  type_ : String := ""
  toolCalls : List ToolCall := []
  toolExecuting : Option ToolCall := none
  toolResults : List ToolResult := []
  promptTokens : Nat := 0
  completionTokens : Nat := 0
  totalTokens : Nat := 0
  agentName : String := ""
  trace : String := ""

/-- An `llms.Tool` as the engine sees it: a name and a `Call` that may emit
side-channel chunks through the response-channel handle placed in the agent
context, and returns a `ToolReturn`.  The emitted chunk list models the
sends performed through `GetResponseChan()` during the call, in order. -/
structure ToolM where
  name : String
  call : List (String × GoValue) → List ExtChunk × ToolResponse

/-! ## Messages and history (src/llms/message.go, src/agents/history.go) -/

inductive MessageRole where
  | system
  | user
  | assistant
  | tool
deriving DecidableEq, Repr

structure UnifiedMessage where
  role : MessageRole
  content : String
  toolCallID : String := ""
  toolCalls : List ToolCall := []
  promptTokens : Nat := 0
  completionTokens : Nat := 0
  totalTokens : Nat := 0

def UserMessage (content : String) : UnifiedMessage :=
  { role := .user, content := content }

def AssistantMessage (content : String) (promptTokens completionTokens totalTokens : Nat) :
    UnifiedMessage :=
  { role := .assistant, content := content, promptTokens := promptTokens,
    completionTokens := completionTokens, totalTokens := totalTokens }

def SystemMessage (content : String) : UnifiedMessage :=
  { role := .system, content := content }

def ToolMessage (toolCallID content : String) : UnifiedMessage :=
  { role := .tool, content := content, toolCallID := toolCallID }

def AssistantMessageWithToolCalls (content : String) (toolCalls : List ToolCall)
    (promptTokens completionTokens totalTokens : Nat) : UnifiedMessage :=
  { role := .assistant, content := content, toolCalls := toolCalls,
    promptTokens := promptTokens, completionTokens := completionTokens,
    totalTokens := totalTokens }

/-- The conversation history.  The persistence layer is not part of the
verified core (claims exclude reloads), so `save`/`get` are identities here
and the structure keeps only the message list and the system-message flag. -/
structure History where
  history : List UnifiedMessage := []
  hasSystemMessage : Bool := false

def History.addUserMessage (h : History) (message : String) : History :=
  { h with history := h.history ++ [UserMessage message] }

/-- Embedding of `History.addSystemMessage`: the system message is prepended
only when none has been inserted yet. -/
def History.addSystemMessage (h : History) (message : String) : History :=
  if h.hasSystemMessage then h
  else { h with history := [SystemMessage message] ++ h.history, hasSystemMessage := true }

def History.addAssistantMessage (h : History) (message : String)
    (promptTokens completionTokens totalTokens : Nat) : History :=
  { h with history := h.history ++ [AssistantMessage message promptTokens completionTokens totalTokens] }

def History.addAssistantMessageWithToolCalls (h : History) (content : String)
    (toolCalls : List ToolCall) (promptTokens completionTokens totalTokens : Nat) : History :=
  { h with history := h.history ++
      [AssistantMessageWithToolCalls content toolCalls promptTokens completionTokens totalTokens] }

def History.addToolMessage (h : History) (toolCallID result : String) : History :=
  { h with history := h.history ++ [ToolMessage toolCallID result] }

/-! ## The Agent and its system-prompt pipeline (unnamed/part_008) -/

structure SubAgentInfo where
  agentName : String
  description : String
  mainAgent : Bool
deriving DecidableEq, Repr

/-- The main-agent boilerplate appended by `ensureSystemPrompt` when
`mainAgent` is set (unnamed/part_008 lines 415-462). -/
def mainAgentBoilerplate : String :=
  "\n[SYSTEM] This are information in addition to any system prompt that the user provided.\nYou are part of a multi-agent system designed to solve complex problems.\nYou are the MAIN agent of the team.\nYou coordinate the team, asking very precise questions to the sub agents\nand read and understand the responses.\n\nIMPORTANT - TOOL CALLS ARE OPTIONAL:\n- Tool calls (function calls) are ONLY used when delegating tasks to sub-agents\n- Most interactions DO NOT require any tool calls\n- Greetings, casual conversation, simple Q&A, and direct answers should NEVER trigger tool calls\n- Respond naturally and directly without tool calls unless you specifically need to delegate to a sub-agent\n- You are NOT required to make a tool call for every message\n\nYou can ask questions to sub agents in order to keep your context clean and focused.\nYou might have some default sub agents that you can rely on. \nIf the user asks you \"what are the agents of your team?\", or \n\"what are your sub agents?\", it very likely refers to your [SUB AGENTS].\nDO NOT REPORT any other sub agents that might be part of your llm implementation.\nDO NOT REPORT any agent that is not part of your [SUB AGENTS].\n\nAT ANY MOMENT KEEP IN MIND WHAT IS YOUR GOAL AND WHAT IS THE QUESTION THAT THE USER ASKED YOU.\n\nWHEN TO DELEGATE (USE TOOL CALLS):\nTool calls are ONLY used for delegating to sub-agents. Before making a tool call to delegate, analyze the question carefully:\n- Is this a COMPLEX problem that requires breaking down into multiple steps?\n- Does the problem require systematic logical reasoning and analysis?\n- Is the information NOT already available in your system prompt or context?\n- Would the problem benefit significantly from specialized analysis?\n\nIf the answer to ALL these questions is YES, then make a tool call to delegate to the appropriate sub agent.\n\nWHEN NOT TO DELEGATE (NO TOOL CALLS NEEDED):\nDO NOT make tool calls in these cases - just respond directly:\n- Greetings and casual conversation (e.g., \"Hi!\", \"How are you?\", \"Thanks!\")\n- Simple informational questions (e.g., \"How many sub agents do you have?\")\n- Questions about your own capabilities or configuration (the answers are in your system prompt)\n- Straightforward tasks that don't require step-by-step breakdown\n- Questions where you already have the answer in your context\n- Simple Q&A, calculations, or explanations you can provide directly\n\nBE MINDFUL\n- Respond naturally without tool calls for most interactions\n- Only use the \"delegate\" tool when truly delegating a complex task to a sub-agent\n- Read carefully the task and your sub agents descriptions\n- Only delegate COMPLEX tasks that truly benefit from specialized analysis\n- Answer simple questions and have normal conversations directly yourself\n"

def defaultSystemPrompt : String := "You are an helpful assistant"

/-- The sub-agent listing header appended by `addSubAgents`
(unnamed/part_008 lines 478-489). -/
def subAgentsHeader : String :=
  "\n=== SUB AGENTS ===\nYou have sub agents that have specific responsibilities.\nYou can delegate COMPLEX tasks to them by using the \"delegate\" tool (this is the ONLY time you use tool calls).\nOnly delegate when the task matches the sub agent's specialization and truly requires it.\nMake sure to provide all the important information and details to the sub agent\nnecessary to perform the task.\n\nRemember: Tool calls are OPTIONAL and ONLY for delegation. Most conversations don't need any tool calls.\n\n[SUB AGENTS]:\n\t"

/-- The Agent fields that the verified behavior reads or writes.  The LLM
engine collaborator is the `llmEngine` function: given the current history
it yields the chunk list delivered on the response channel, in order,
followed by an optional error delivered on the error channel (the engine's
tool-schema argument does not influence the modelled control flow and is
dropped). -/
structure Agent where
  agentName : String
  trace : String
  systemPrompt : String
  mainAgent : Bool
  subAgents : List SubAgentInfo
  tools : List ToolM
  maxToolIterations : Nat
  history : Option History
  llmEngine : List UnifiedMessage → List ExtChunk × Option String

/-- Embedding of `Agent.ensureHistory` (persistence wiring omitted: the
claims concern runs without a persistence reload). -/
def Agent.ensureHistory (a : Agent) : Agent :=
  match a.history with
  | none => { a with history := some {} }
  | some _ => a

/-- Current history list of an ensured agent. -/
def Agent.hist (a : Agent) : List UnifiedMessage :=
  (a.history.getD {}).history

/-- Embedding of `Agent.addSubAgents`: when sub-agents exist, append the
listing header plus one formatted line per sub-agent to the system prompt,
clearing each sub-agent's `mainAgent` flag as the source loop does. -/
def Agent.addSubAgents (a : Agent) : Agent :=
  if a.subAgents.isEmpty then a
  else
    let saPrompt := subAgentsHeader ++ String.join
      (a.subAgents.map (fun sa => "📌 " ++ sa.agentName ++ ": " ++ sa.description ++ "\n\n"))
    { a with systemPrompt := a.systemPrompt ++ saPrompt,
             subAgents := a.subAgents.map (fun sa => { sa with mainAgent := false }) }

/-- Embedding of `Agent.ensureSystemPrompt` (unnamed/part_008 lines
413-471): append the main-agent boilerplate when `mainAgent` is set, default
an empty prompt, append the sub-agent listing, then insert the system
message into history. -/
def Agent.ensureSystemPrompt (a : Agent) : Agent :=
  let a1 := if a.mainAgent then { a with systemPrompt := a.systemPrompt ++ mainAgentBoilerplate } else a
  let a2 := if a1.systemPrompt = "" then { a1 with systemPrompt := defaultSystemPrompt } else a1
  let a3 := a2.addSubAgents
  let a4 := a3.ensureHistory
  { a4 with history := some ((a4.history.getD {}).addSystemMessage a4.systemPrompt) }

/-- Embedding of `Agent.handleSystemPromptInjection`: ensure the history and
the system prompt, then insert the system message (a second, idempotent
insertion after the one `ensureSystemPrompt` already performed). -/
def Agent.handleSystemPromptInjection (a : Agent) : Agent :=
  let a1 := a.ensureHistory
  let a2 := a1.ensureSystemPrompt
  { a2 with history := some ((a2.history.getD {}).addSystemMessage a2.systemPrompt) }

/-- Embedding of `Agent.handleNewUserMessage`. -/
def Agent.handleNewUserMessage (a : Agent) (message : String) : Agent :=
  let a1 := a.ensureHistory
  { a1 with history := some ((a1.history.getD {}).addUserMessage message) }

/-! ## The chat loop (unnamed/part_008 `Agent.executeChatWithTools`)

The LLM response channel is modelled as the list of chunks sent on
`Response` in production order, followed by the optional value sent on
`Error`; the consumption loop reads `Response` first and consults `Error`
once the chunk list is exhausted, the deterministic schedule of the
source's `select`. -/

/-- The loop-local accumulator of `executeChatWithTools`' inner streaming
loop: forwarded chunks, accumulated content, detected tool calls, the
stored completed chunk, and the token usage extracted from it. -/
structure StreamAcc where
  forwarded : List ExtChunk := []
  fullContent : String := ""
  toolCalls : List ToolCall := []
  hasToolCalls : Bool := false
  completedChunk : Option ExtChunk := none
  promptTokens : Nat := 0
  completionTokens : Nat := 0
  totalTokens : Nat := 0

/-- Embedding of the inner streaming loop (unnamed/part_008 lines 248-293):
accumulate content, latch tool calls from a tool-call chunk, stop at a
completed chunk without forwarding it (storing it and its token usage), and
forward every other chunk. -/
def consumeChunks : List ExtChunk → StreamAcc → StreamAcc
  | [], acc => acc
  | c :: rest, acc =>
    let fc := if c.content ≠ "" then acc.fullContent ++ c.content else acc.fullContent
    let isTC := c.status = StatusToolCall ∧ c.toolCalls.isEmpty = false
    let tcs := if isTC then c.toolCalls else acc.toolCalls
    let htc := if isTC then true else acc.hasToolCalls
    if c.status = StatusCompleted then
      { acc with fullContent := fc, toolCalls := tcs, hasToolCalls := htc,
                 completedChunk := some c, promptTokens := c.promptTokens,
                 completionTokens := c.completionTokens, totalTokens := c.totalTokens }
    else
      consumeChunks rest
        { acc with fullContent := fc, toolCalls := tcs, hasToolCalls := htc,
                   forwarded := acc.forwarded ++ [c] }

/-- The tool-executing chunk emitted before each tool execution
(unnamed/part_008 lines 313-323). -/
def toolExecutingChunk (tc : ToolCall) : ExtChunk :=
  { status := StatusToolExecuting, type_ := TypeToolExecuting, toolExecuting := some tc }

/-- The tool-result chunk emitted after each tool execution
(unnamed/part_008 lines 328-338). -/
def toolResultChunk (r : ToolResult) : ExtChunk :=
  { status := StatusToolResult, type_ := TypeToolResult, toolResults := [r] }

/-- Embedding of `Agent.executeTool` (unnamed/part_008 lines 352-397):
resolve the call's name against the configured tools by exact comparison
(the first match, as the source's loop breaks on it); a miss yields the
not-found outcome, a hit invokes the tool's `Call` and maps its return
1:1 into a `ToolResult`.  The emitted side-channel chunks of the call are
returned alongside. -/
def executeTool (tools : List ToolM) (tc : ToolCall) : List ExtChunk × ToolResult :=
  match tools.find? (fun t => t.name == tc.name) with
  | none =>
    ([], { toolCallID := tc.id, toolName := tc.name, success := false, result := "",
           error := "tool not found: " ++ tc.name })
  | some t =>
    let r := (t.call tc.arguments).2
    ((t.call tc.arguments).1,
     { toolCallID := tc.id, toolName := tc.name, success := r.success,
       result := r.data, error := r.error })

/-- Embedding of the per-iteration tool loop (unnamed/part_008 lines
311-343): for each requested call in order, emit the tool-executing chunk,
run the tool (its side-channel chunks appear between the two markers), emit
the tool-result chunk, and append the tool message to history.  Returns the
emitted chunks and the appended tool messages. -/
def runToolCalls (tools : List ToolM) : List ToolCall → List ExtChunk × List UnifiedMessage
  | [] => ([], [])
  | tc :: rest =>
    let res := (executeTool tools tc).2
    ([toolExecutingChunk tc] ++ (executeTool tools tc).1 ++ [toolResultChunk res] ++
       (runToolCalls tools rest).1,
     [ToolMessage tc.id res.result] ++ (runToolCalls tools rest).2)

/-- The outcome of one `executeChatWithTools` run: the chunks sent to the
agent's response channel in order, the number of LLM calls performed, the
final history, and the returned error (`none` for a nil return). -/
structure RunResult where
  emitted : List ExtChunk
  modelCalls : Nat
  history : List UnifiedMessage
  err : Option String

def maxIterationsMsg (n : Nat) : String :=
  "reached maximum tool iterations (" ++ toString n ++ ")"

/-- Embedding of `Agent.executeChatWithTools` (unnamed/part_008 lines
226-350) as fuel recursion: the fuel is `maxToolIterations - iteration`.
Each step calls the LLM engine, consumes its stream, and either fails on a
transport error, finishes (forwarding the stored completed chunk and saving
the assistant message when one arrived), or saves the assistant message
with tool calls, runs the tool loop, and re-enters.  Exhausted fuel is the
iteration cap: the "reached maximum tool iterations" error. -/
def execLoop (llm : List UnifiedMessage → List ExtChunk × Option String)
    (tools : List ToolM) (maxIter : Nat) :
    Nat → List UnifiedMessage → RunResult
  | 0, hist =>
    { emitted := [], modelCalls := 0, history := hist, err := some (maxIterationsMsg maxIter) }
  | fuel + 1, hist =>
    let llmErr := (llm hist).2
    let acc := consumeChunks (llm hist).1 {}
    if acc.completedChunk.isNone ∧ llmErr.isSome then
      { emitted := acc.forwarded, modelCalls := 1, history := hist,
        err := some ("llm stream error: " ++ llmErr.getD "") }
    else if acc.hasToolCalls = false then
      match acc.completedChunk with
      | some cc =>
        { emitted := acc.forwarded ++ [cc], modelCalls := 1,
          history := hist ++ [AssistantMessage acc.fullContent acc.promptTokens
            acc.completionTokens acc.totalTokens],
          err := none }
      | none =>
        { emitted := acc.forwarded, modelCalls := 1, history := hist, err := none }
    else
      let hist1 := hist ++ [AssistantMessageWithToolCalls acc.fullContent acc.toolCalls
        acc.promptTokens acc.completionTokens acc.totalTokens]
      let rest := execLoop llm tools maxIter fuel (hist1 ++ (runToolCalls tools acc.toolCalls).2)
      { emitted := acc.forwarded ++ (runToolCalls tools acc.toolCalls).1 ++ rest.emitted,
        modelCalls := rest.modelCalls + 1,
        history := rest.history,
        err := rest.err }

/-- One full `executeChatWithTools` run starting at iteration 0. -/
def executeChatWithTools (llm : List UnifiedMessage → List ExtChunk × Option String)
    (tools : List ToolM) (maxIter : Nat) (hist : List UnifiedMessage) : RunResult :=
  execLoop llm tools maxIter maxIter hist

/-- The stream accumulator one iteration of the loop computes from the LLM
response for the given history. -/
def iterationAcc (llm : List UnifiedMessage → List ExtChunk × Option String)
    (hist : List UnifiedMessage) : StreamAcc :=
  consumeChunks (llm hist).1 {}

/-- The history passed to the next iteration after a tool-call round: the
assistant message carrying the requested calls, then one tool message per
outcome. -/
def nextHist (llm : List UnifiedMessage → List ExtChunk × Option String)
    (tools : List ToolM) (hist : List UnifiedMessage) : List UnifiedMessage :=
  let acc := iterationAcc llm hist
  (hist ++ [AssistantMessageWithToolCalls acc.fullContent acc.toolCalls
    acc.promptTokens acc.completionTokens acc.totalTokens]) ++
    (runToolCalls tools acc.toolCalls).2

/-! ## The consumer-facing stream (agents `responseCh.Start`) -/

/-- Embedding of the identity-filling step of the agents-package
`responseCh.Start`: the agent name and trace are set only when the chunk
does not already carry them; every other field is untouched. -/
def fillIdentity (agentName trace : String) (c : ExtChunk) : ExtChunk :=
  { c with agentName := if c.agentName = "" then agentName else c.agentName,
           trace := if c.trace = "" then trace else c.trace }

/-- The chunk `Start` synthesizes from a value received on the error
channel. -/
def errorChunkOf (msg agentName trace : String) : ExtChunk :=
  { content := msg, status := StatusError, agentName := agentName, trace := trace }

/-- The sequence of chunks `Start` delivers to the consumer for one run:
every chunk sent on `Response`, identity-filled, followed by the error
chunk when the run returned an error (the producer goroutine of
`Agent.ChatStream` sends the error and then closes both channels; the
deterministic schedule delivers the drained chunks first and the error
last). -/
def consumerStream (agentName trace : String) (r : RunResult) : List ExtChunk :=
  r.emitted.map (fillIdentity agentName trace) ++
    (match r.err with
     | some e => [errorChunkOf e agentName trace]
     | none => [])

/-- Embedding of `Agent.ChatStream`: inject the system prompt, append the
user message, run the chat loop, and deliver its chunks through `Start`'s
identity-filling consumer stream. -/
def Agent.chatStreamEvents (a : Agent) (message : String) : List ExtChunk :=
  let a2 := a.handleSystemPromptInjection
  let a3 := a2.handleNewUserMessage message
  let r := executeChatWithTools a3.llmEngine a3.tools a3.maxToolIterations a3.hist
  consumerStream a3.agentName a3.trace r

/-! ## The delegate tool (src/tools/delegateTool.go) -/

/-- A sub-agent as the delegate tool sees it: a name and a `ChatStream`
yielding the chunk sequence its own `Start` delivers (already carrying the
child's identity fields).  The reflection-based channel draining of the
source is modelled as direct traversal of that list. -/
structure SubAgentM where
  name : String
  chatStream : String → List ExtChunk

/-- The delegation-start marker chunk (delegateTool.go lines 92-101). -/
def delegateStartChunk (subAgentName : String) : ExtChunk :=
  { status := StatusStreaming, type_ := TypeContent,
    content := "\n [🛠️ Delegating to " ++ subAgentName ++ "...]\n" }

/-- The delegation-complete marker chunk (delegateTool.go lines 168-178). -/
def delegateEndChunk (subAgentName : String) : ExtChunk :=
  { status := StatusStreaming, type_ := TypeContent,
    content := "\n[✅ Delegation to " ++ subAgentName ++ " complete]\n" }

/-- Embedding of the drain loop of the delegate handler (delegateTool.go
lines 123-166): for every chunk received from the child, append its
`Content` field (when non-empty) to the running full response, and on a
chunk whose status is the error status record the delegation error built
from that chunk's content (overwriting any earlier one, as the source's
assignment does).  The per-chunk forwarding to the parent's channel is the
chunk itself: marshal followed by unmarshal is modelled as the identity. -/
def delegateDrain : List ExtChunk → String → Option String → String × Option String
  | [], acc, derr => (acc, derr)
  | c :: rest, acc, derr =>
    let acc1 := if c.content ≠ "" then acc ++ c.content else acc
    let derr1 := if c.status = StatusError then some ("delegation error: " ++ c.content) else derr
    delegateDrain rest acc1 derr1

/-- Extraction of a validated string argument, standing for the source's
`args[key].(string)` assertion (the arguments reaching the handler are
validated, so the assertion cannot fail there). -/
def argString (args : List (String × GoValue)) (key : String) : String :=
  match lookupArg args key with
  | some (.str s) => s
  | _ => ""

/-- Embedding of the delegate handler (delegateTool.go lines 67-186):
resolve the sub-agent by exact name, emit the start marker, drain the
child's stream (forwarding every chunk verbatim), emit the end marker, and
return the accumulated response — as a failure outcome when a delegation
error was recorded.  The handler runs on validated arguments, so the two
parameters are known to be strings; the `agentName must be a string`
context check is not modelled (the execution context always carries the
agent name string in the embedded engine). -/
def delegateHandler (subAgents : List SubAgentM) (args : List (String × GoValue)) :
    List ExtChunk × ToolResponse :=
  let subAgentName := argString args "subAgent"
  let message := argString args "message"
  match subAgents.find? (fun sa => sa.name == subAgentName) with
  | none => ([], NewErrorResponse ("sub agent '" ++ subAgentName ++ "' not found"))
  | some sa =>
    let childChunks := sa.chatStream message
    let fullResponse := (delegateDrain childChunks "" none).1
    let emitted := [delegateStartChunk subAgentName] ++ childChunks ++ [delegateEndChunk subAgentName]
    match (delegateDrain childChunks "" none).2 with
    | some e => (emitted, NewFailureResponse e fullResponse)
    | none => (emitted, NewSuccessResponse fullResponse)

/-- The delegate tool's declared parameters (delegateTool.go lines 53-66). -/
def delegateParameters : List Parameter :=
  [ { name := "subAgent", type_ := "string", required := true },
    { name := "message", type_ := "string", required := true } ]

/-- Embedding of `NewDelegateTool`: a context-aware tool named `delegate`
whose `Call` validates the two declared parameters and then runs the
delegation handler. -/
def NewDelegateTool (subAgents : List SubAgentM) : ToolM :=
  { name := "delegate",
    call := fun args =>
      match validateAndExtractArgs delegateParameters args [] with
      | .error e => ([], e)
      | .ok validated => delegateHandler subAgents validated }

/-! ## Auxiliary predicates and operation language used by the claims -/

/-- Number of system messages in a message list. -/
def sysCount (msgs : List UnifiedMessage) : Nat :=
  msgs.countP (fun m => m.role == MessageRole.system)

/-- The history-touching operations one `Run` performs on an Agent between
persistence-free turns: the prompt-ensure step and the four appends. -/
inductive AgentOp where
  | ensurePrompt
  | userMsg (s : String)
  | assistantMsg (s : String) (p c t : Nat)
  | assistantToolCalls (s : String) (tcs : List ToolCall) (p c t : Nat)
  | toolMsg (id result : String)

/-- Apply a history function to an (ensured) agent's history, as every
`handleNew…Message` helper of the source does. -/
def Agent.modifyHistory (a : Agent) (f : History → History) : Agent :=
  let a1 := a.ensureHistory
  { a1 with history := some (f (a1.history.getD {})) }

def applyOp (a : Agent) : AgentOp → Agent
  | .ensurePrompt => a.handleSystemPromptInjection
  | .userMsg s => a.handleNewUserMessage s
  | .assistantMsg s p c t => a.modifyHistory (fun h => h.addAssistantMessage s p c t)
  | .assistantToolCalls s tcs p c t =>
    a.modifyHistory (fun h => h.addAssistantMessageWithToolCalls s tcs p c t)
  | .toolMsg i r => a.modifyHistory (fun h => h.addToolMessage i r)

def applyOps (a : Agent) (ops : List AgentOp) : Agent :=
  ops.foldl applyOp a

/-- The system-message invariant of a history: when the flag is unset no
system message is present; when set, the history starts with the one
system message and contains no other. -/
def systemInv (h : History) : Prop :=
  (h.hasSystemMessage = false ∧ sysCount h.history = 0) ∨
  (h.hasSystemMessage = true ∧ ∃ m tail, h.history = m :: tail ∧
    m.role = MessageRole.system ∧ sysCount tail = 0)

/-- The system-message invariant lifted to an Agent (vacuous before the
history exists). -/
def agentInv (a : Agent) : Prop :=
  match a.history with
  | none => True
  | some h => systemInv h

/-- A declared parameter passes validation on `args`: it is present, its
value has the declared type, and its custom validator (if any) accepts. -/
def paramPasses (args : List (String × GoValue)) (p : Parameter) : Prop :=
  ∃ v, lookupArg args p.name = some v ∧ validateType v p.type_ = none ∧
    ∀ f, p.validator = some f → f v = none

/-- The Agent fields the chat engine reads, bundled for the preservation
lemmas: agent name, trace, tools, iteration cap, and LLM engine. -/
def engineView (a : Agent) : String × String × List ToolM × Nat ×
    (List UnifiedMessage → List ExtChunk × Option String) :=
  (a.agentName, a.trace, a.tools, a.maxToolIterations, a.llmEngine)

/-- A terminal event: `completed` or `error` status. -/
def isTerminal (c : ExtChunk) : Bool :=
  c.status == StatusCompleted || c.status == StatusError

/-- The spec's termination contract, stated of a delivered event list: every
event before the last one is non-terminal (hence at most one terminal event
is delivered, necessarily as the final one before closure). -/
def terminalOnlyLast (evs : List ExtChunk) : Bool :=
  evs.dropLast.all (fun c => !(isTerminal c))

/-- Concatenation of the `Content` fields of a chunk list, which is what
the delegate drain loop accumulates. -/
def concatContents : List ExtChunk → String
  | [] => ""
  | c :: rest => c.content ++ concatContents rest

/-- Modelled from the spec: "the `delegate` outcome's `result` text equals
the concatenation, in order, of all content-deltas forwarded from the
child's stream" — only the content of content-delta events (streaming
status, content type) is counted.  This definition follows the spec's
words and exists to be compared with the source-derived `delegateDrain`. -/
def specContentDeltaConcat : List ExtChunk → String
  | [] => ""
  | c :: rest =>
    (if c.status = StatusStreaming ∧ c.type_ = TypeContent then c.content else "") ++
      specContentDeltaConcat rest

/-! ## Concrete inputs used by counterexamples and witnesses -/

/-- A content-delta chunk as the LLM engine produces it
(src/llms/openai.go lines 187-193). -/
def contentChunk (delta fullSoFar : String) : ExtChunk :=
  { content := delta, delta := delta, fullContent := fullSoFar,
    status := StatusStreaming, type_ := TypeContent }

/-- A tool-call chunk as the LLM engine produces it
(src/llms/openai.go lines 271-278). -/
def toolCallChunk (fullSoFar : String) (tcs : List ToolCall) : ExtChunk :=
  { fullContent := fullSoFar, status := StatusToolCall, type_ := TypeToolCall,
    toolCalls := tcs }

/-- A completed chunk as the LLM engine produces it
(src/llms/openai.go lines 294-303). -/
def completedChunk (fullSoFar : String) (p c t : Nat) : ExtChunk :=
  { fullContent := fullSoFar, status := StatusCompleted, type_ := TypeCompletion,
    promptTokens := p, completionTokens := c, totalTokens := t }

/-- A main agent used to exhibit the non-idempotence of the prompt-ensure
step (the `llmEngine` is never called by that step). -/
def c3Agent : Agent :=
  { agentName := "main-agent", trace := "", systemPrompt := "You are a main agent",
    mainAgent := true, subAgents := [], tools := [], maxToolIterations := 10,
    history := none, llmEngine := fun _ => ([], none) }

/-- Child stream for the delegation-accumulation counterexample: one
content delta, then the terminal error chunk the child's `Start` emits for
a stream error. -/
def c2ChildChunks : List ExtChunk :=
  [contentChunk "hi" "hi",
   { content := "boom", status := StatusError, agentName := "child", trace := "t" }]

def c2Child : SubAgentM :=
  { name := "sub", chatStream := fun _ => c2ChildChunks }

def c2Args : List (String × GoValue) :=
  [("subAgent", GoValue.str "sub"), ("message", GoValue.str "go")]

/-- Child for the terminal-event counterexample: a delta, then the child's
own completed chunk, both forwarded verbatim into the parent stream. -/
def c9Child : SubAgentM :=
  { name := "sub",
    chatStream := fun _ =>
      [{ contentChunk "hi" "hi" with agentName := "child", trace := "t" },
       { completedChunk "hi" 1 2 3 with agentName := "child", trace := "t" }] }

def c9Tools : List ToolM := [NewDelegateTool [c9Child]]

/-- Oracle for the terminal-event counterexample: the first model call
requests one `delegate` tool call, the second completes normally. -/
def c9Llm (hist : List UnifiedMessage) : List ExtChunk × Option String :=
  if hist.length ≤ 2 then
    ([toolCallChunk "" [⟨"id1", "delegate", c2Args⟩]], none)
  else
    ([contentChunk "done" "done", completedChunk "done" 1 1 2], none)

/-- A delegating parent agent used to exhibit a forwarded child completed
event in the middle of the parent's stream. -/
def c9Agent : Agent :=
  { agentName := "parent", trace := "tr", systemPrompt := "p", mainAgent := false,
    subAgents := [], tools := c9Tools, maxToolIterations := 10, history := none,
    llmEngine := c9Llm }

/-- Oracle whose every response requests another tool call, for the
iteration-cap witness. -/
def c1Llm (_hist : List UnifiedMessage) : List ExtChunk × Option String :=
  ([toolCallChunk "" [⟨"id1", "loop", []⟩]], none)

/-- A tool-free agent over the looping oracle: its stream ends with the
iteration-cap error event as its only terminal event. -/
def c9WitnessAgent : Agent :=
  { agentName := "w", trace := "", systemPrompt := "p", mainAgent := false,
    subAgents := [], tools := [], maxToolIterations := 2, history := none,
    llmEngine := c1Llm }

/-- A tool with two required string parameters, for the validation-order
counterexample. -/
def c5Tool : Tool :=
  NewTool "ex" "example" "" ""
    [ { name := "a", type_ := "string", required := true },
      { name := "x", type_ := "string", required := true } ]
    (fun _ _ => NewSuccessResponse "ran")

/-! # Theorems -/

/-! ## String and substring helper lemmas -/

theorem charsStartWith_self : ∀ l : List Char, charsStartWith l l = true
  | [] => rfl
  | a :: as => by simp [charsStartWith, charsStartWith_self as]

theorem strContainsSub_self (s : String) : strContainsSub s s = true := by
  unfold strContainsSub
  cases h : s.data with
  | nil => simp [charsContain, charsStartWith]
  | cons a as => simp [charsContain, charsStartWith_self]

theorem string_append_ne_self (s t : String) (ht : ¬ t = "") : ¬ s ++ t = s := by
  intro h
  apply ht
  have hd : s.data ++ t.data = s.data := by
    have h2 := congrArg String.data h
    simpa [String.data_append] using h2
  have h3 : t.data = [] := List.append_right_eq_self.mp hd
  exact String.ext (h3.trans rfl)

/-! ## Validation-layer lemmas (claims C5 and C10) -/

theorem validateAndExtractArgs_ok_keys :
    ∀ (params : List Parameter) (args acc validated : List (String × GoValue)),
      validateAndExtractArgs params args acc = .ok validated →
      ∀ k ∈ validated.map Prod.fst, k ∈ params.map Parameter.name ∨ k ∈ acc.map Prod.fst := by
  intro params
  induction params with
  | nil =>
    intro args acc validated h k hk
    simp only [validateAndExtractArgs] at h
    cases h
    exact Or.inr hk
  | cons p rest ih =>
    intro args acc validated h k hk
    simp only [validateAndExtractArgs] at h
    have fromRecSkip : validateAndExtractArgs rest args acc = .ok validated →
        k ∈ (p :: rest).map Parameter.name ∨ k ∈ acc.map Prod.fst := by
      intro hrec
      rcases ih args acc validated hrec k hk with h1 | h2
      · exact Or.inl (by simp only [List.map_cons, List.mem_cons]; exact Or.inr h1)
      · exact Or.inr h2
    have fromRec : ∀ value,
        validateAndExtractArgs rest args (acc ++ [(p.name, value)]) = .ok validated →
        k ∈ (p :: rest).map Parameter.name ∨ k ∈ acc.map Prod.fst := by
      intro value hrec
      rcases ih args (acc ++ [(p.name, value)]) validated hrec k hk with h1 | h2
      · exact Or.inl (by simp only [List.map_cons, List.mem_cons]; exact Or.inr h1)
      · rw [List.map_append] at h2
        rcases List.mem_append.mp h2 with h3 | h4
        · exact Or.inr h3
        · simp only [List.map_cons, List.map_nil, List.mem_singleton] at h4
          exact Or.inl (by simp only [List.map_cons, List.mem_cons]; exact Or.inl h4)
    split at h
    · split at h
      · exact absurd h (by simp)
      · exact fromRecSkip h
    · split at h
      · exact absurd h (by simp)
      · split at h
        · split at h
          · exact absurd h (by simp)
          · exact fromRec _ h
        · exact fromRec _ h

/-- C10: every tool built via `NewTool`, `NewSimpleTool` or
`NewContextAwareTool` invokes its handler, when it invokes it at all, on an
argument map containing only declared parameter names: any undeclared key
of the caller-supplied map is dropped by `validateAndExtractArgs` before
the handler runs, and on a validation failure the synthesized outcome is
returned without touching the handler. -/
theorem tool_handler_only_declared_keys
    (n d ad tr : String) (params : List Parameter)
    (hc : AgentContext → List (String × GoValue) → ToolResponse)
    (hs : List (String × GoValue) → ToolResponse)
    (ctx : AgentContext) (args : List (String × GoValue)) :
    (∃ e, validateAndExtractArgs params args [] = .error e ∧
      (NewTool n d ad tr params hc).Call ctx args = e ∧
      (NewSimpleTool n d ad tr params hs).Call ctx args = e ∧
      (NewContextAwareTool n d ad tr params hc).Call ctx args = e) ∨
    (∃ v, validateAndExtractArgs params args [] = .ok v ∧
      (∀ k ∈ v.map Prod.fst, k ∈ params.map Parameter.name) ∧
      (NewTool n d ad tr params hc).Call ctx args = hc ctx v ∧
      (NewSimpleTool n d ad tr params hs).Call ctx args = hs v ∧
      (NewContextAwareTool n d ad tr params hc).Call ctx args = hc ctx v) := by
  cases hval : validateAndExtractArgs params args [] with
  | error e =>
    left
    refine ⟨e, rfl, ?_, ?_, ?_⟩ <;>
      simp [Tool.Call, SimpleTool.Call, ContextAwareTool.Call, NewTool, NewSimpleTool,
        NewContextAwareTool, hval]
  | ok v =>
    right
    refine ⟨v, rfl, ?_, ?_, ?_, ?_⟩
    · intro k hkv
      rcases validateAndExtractArgs_ok_keys params args [] v hval k hkv with h1 | h2
      · exact h1
      · simp at h2
    all_goals
      simp [Tool.Call, SimpleTool.Call, ContextAwareTool.Call, NewTool, NewSimpleTool,
        NewContextAwareTool, hval]

theorem validateAndExtractArgs_required_absent :
    ∀ (params : List Parameter) (args acc : List (String × GoValue)) (x : Parameter),
      x ∈ params → x.required = true → lookupArg args x.name = none →
      ∃ e, validateAndExtractArgs params args acc = .error e ∧ e.success = false := by
  intro params
  induction params with
  | nil =>
    intro args acc x hx _ _
    exact absurd hx (List.not_mem_nil x)
  | cons p rest ih =>
    intro args acc x hx hreq habs
    rcases List.mem_cons.mp hx with hxp | hx'
    · subst hxp
      have heq : validateAndExtractArgs (x :: rest) args acc =
          .error (NewErrorResponse ("missing required parameter: " ++ x.name)) := by
        simp [validateAndExtractArgs, habs, hreq]
      exact ⟨_, heq, rfl⟩
    · cases hlk : lookupArg args p.name with
      | none =>
        by_cases hr : p.required = true
        · have heq : validateAndExtractArgs (p :: rest) args acc =
              .error (NewErrorResponse ("missing required parameter: " ++ p.name)) := by
            simp [validateAndExtractArgs, hlk, hr]
          exact ⟨_, heq, rfl⟩
        · have heq : validateAndExtractArgs (p :: rest) args acc =
              validateAndExtractArgs rest args acc := by
            simp [validateAndExtractArgs, hlk, hr]
          rw [heq]
          exact ih args acc x hx' hreq habs
      | some v =>
        cases hvt : validateType v p.type_ with
        | some msg =>
          have heq : validateAndExtractArgs (p :: rest) args acc =
              .error (NewErrorResponse ("invalid type for " ++ p.name ++ ": " ++ msg)) := by
            simp [validateAndExtractArgs, hlk, hvt]
          exact ⟨_, heq, rfl⟩
        | none =>
          cases hvd : p.validator with
          | none =>
            have heq : validateAndExtractArgs (p :: rest) args acc =
                validateAndExtractArgs rest args (acc ++ [(p.name, v)]) := by
              simp [validateAndExtractArgs, hlk, hvt, hvd]
            rw [heq]
            exact ih args _ x hx' hreq habs
          | some f =>
            cases hfv : f v with
            | some msg =>
              have heq : validateAndExtractArgs (p :: rest) args acc =
                  .error (NewErrorResponse ("validation failed for " ++ p.name ++ ": " ++ msg)) := by
                simp [validateAndExtractArgs, hlk, hvt, hvd, hfv]
              exact ⟨_, heq, rfl⟩
            | none =>
              have heq : validateAndExtractArgs (p :: rest) args acc =
                  validateAndExtractArgs rest args (acc ++ [(p.name, v)]) := by
                simp [validateAndExtractArgs, hlk, hvt, hvd, hfv]
              rw [heq]
              exact ih args _ x hx' hreq habs

theorem validateAndExtractArgs_missing_first :
    ∀ (pre : List Parameter) (post : List Parameter) (x : Parameter)
      (args acc : List (String × GoValue)),
      (∀ p ∈ pre, paramPasses args p) → x.required = true → lookupArg args x.name = none →
      validateAndExtractArgs (pre ++ x :: post) args acc =
        .error (NewErrorResponse ("missing required parameter: " ++ x.name)) := by
  intro pre
  induction pre with
  | nil =>
    intro post x args acc _ hreq habs
    simp [validateAndExtractArgs, habs, hreq]
  | cons p pres ih =>
    intro post x args acc hpass hreq habs
    obtain ⟨v, hlk, hvt, hvd⟩ := hpass p (List.mem_cons_self p pres)
    have hrest : ∀ q ∈ pres, paramPasses args q :=
      fun q hq => hpass q (List.mem_cons_of_mem p hq)
    cases hvdm : p.validator with
    | none =>
      have heq : validateAndExtractArgs ((p :: pres) ++ x :: post) args acc =
          validateAndExtractArgs (pres ++ x :: post) args (acc ++ [(p.name, v)]) := by
        simp [validateAndExtractArgs, hlk, hvt, hvdm]
      rw [heq]
      exact ih post x args _ hrest hreq habs
    | some f =>
      have hfv : f v = none := hvd f hvdm
      have heq : validateAndExtractArgs ((p :: pres) ++ x :: post) args acc =
          validateAndExtractArgs (pres ++ x :: post) args (acc ++ [(p.name, v)]) := by
        simp [validateAndExtractArgs, hlk, hvt, hvdm, hfv]
      rw [heq]
      exact ih post x args _ hrest hreq habs

/-- C5 (amended): when a declared required parameter `x` is absent from the
argument map, `Call` on any tool built over the validation layer returns a
synthesized failure outcome (success is false) without ever invoking the
handler; the error names the FIRST failing parameter in declaration order,
so it contains "missing required parameter: x" exactly when every parameter
declared before `x` validates; and for a present argument the type check
runs before the custom validator — a type mismatch yields the type error
whatever the validator would say, so no validation failure of any kind
reaches the handler. -/
theorem validation_missing_required
    (pre post : List Parameter) (x : Parameter) (args : List (String × GoValue))
    (hreq : x.required = true) (habs : lookupArg args x.name = none) :
    (∃ e, validateAndExtractArgs (pre ++ x :: post) args [] = .error e ∧ e.success = false ∧
      (∀ n d ad tr hc ctx, (NewTool n d ad tr (pre ++ x :: post) hc).Call ctx args = e) ∧
      (∀ n d ad tr hs ctx, (NewSimpleTool n d ad tr (pre ++ x :: post) hs).Call ctx args = e) ∧
      (∀ n d ad tr hc ctx, (NewContextAwareTool n d ad tr (pre ++ x :: post) hc).Call ctx args = e)) ∧
    ((∀ p ∈ pre, paramPasses args p) →
      validateAndExtractArgs (pre ++ x :: post) args [] =
        .error (NewErrorResponse ("missing required parameter: " ++ x.name)) ∧
      strContainsSub (NewErrorResponse ("missing required parameter: " ++ x.name)).error
        ("missing required parameter: " ++ x.name) = true) ∧
    (∀ (p : Parameter) (rest2 : List Parameter) (args2 acc : List (String × GoValue))
       (v : GoValue) (msg : String),
      lookupArg args2 p.name = some v → validateType v p.type_ = some msg →
      validateAndExtractArgs (p :: rest2) args2 acc =
        .error (NewErrorResponse ("invalid type for " ++ p.name ++ ": " ++ msg))) := by
  have hx : x ∈ pre ++ x :: post := List.mem_append.mpr (Or.inr (List.mem_cons_self x post))
  obtain ⟨e, he, hs⟩ := validateAndExtractArgs_required_absent (pre ++ x :: post) args [] x hx hreq habs
  refine ⟨⟨e, he, hs, ?_, ?_, ?_⟩, ?_, ?_⟩
  · intro n d ad tr hc ctx
    simp [Tool.Call, NewTool, he]
  · intro n d ad tr hs2 ctx
    simp [SimpleTool.Call, NewSimpleTool, he]
  · intro n d ad tr hc ctx
    simp [ContextAwareTool.Call, NewContextAwareTool, he]
  · intro hpre
    exact ⟨validateAndExtractArgs_missing_first pre post x args [] hpre hreq habs,
      strContainsSub_self _⟩
  · intro p rest2 args2 acc v msg hlk hvt
    simp [validateAndExtractArgs, hlk, hvt]

/-- C5 counterexample: the tool `c5Tool` declares the required parameters
`a` and `x` in that order; calling it with an empty argument map leaves the
required parameter `x` absent, yet the returned error is "missing required
parameter: a" and does not contain "missing required parameter: x" — the
claim's universally quantified error-content guarantee fails. -/
theorem validation_missing_required_counterexample :
    ((c5Tool.parameters.map Parameter.name).contains "x" = true) ∧
    (c5Tool.parameters.all (fun p => p.required) = true) ∧
    ((lookupArg ([] : List (String × GoValue)) "x").isNone = true) ∧
    c5Tool.Call [] [] = NewErrorResponse "missing required parameter: a" ∧
    strContainsSub (c5Tool.Call [] []).error "missing required parameter: x" = false := by
  refine ⟨rfl, rfl, rfl, by decide, by decide⟩

/-! ## Chat-loop step lemmas (claims C1, C6, C7, C9) -/

theorem execLoop_succ_eq (llm : List UnifiedMessage → List ExtChunk × Option String)
    (tools : List ToolM) (maxIter fuel : Nat) (hist : List UnifiedMessage) :
    execLoop llm tools maxIter (fuel + 1) hist =
      (if (iterationAcc llm hist).completedChunk.isNone ∧ ((llm hist).2).isSome then
        { emitted := (iterationAcc llm hist).forwarded, modelCalls := 1, history := hist,
          err := some ("llm stream error: " ++ ((llm hist).2).getD "") }
      else if (iterationAcc llm hist).hasToolCalls = false then
        match (iterationAcc llm hist).completedChunk with
        | some cc =>
          { emitted := (iterationAcc llm hist).forwarded ++ [cc], modelCalls := 1,
            history := hist ++ [AssistantMessage (iterationAcc llm hist).fullContent
              (iterationAcc llm hist).promptTokens (iterationAcc llm hist).completionTokens
              (iterationAcc llm hist).totalTokens],
            err := none }
        | none =>
          { emitted := (iterationAcc llm hist).forwarded, modelCalls := 1, history := hist,
            err := none }
      else
        { emitted := (iterationAcc llm hist).forwarded ++
            (runToolCalls tools (iterationAcc llm hist).toolCalls).1 ++
            (execLoop llm tools maxIter fuel (nextHist llm tools hist)).emitted,
          modelCalls := (execLoop llm tools maxIter fuel (nextHist llm tools hist)).modelCalls + 1,
          history := (execLoop llm tools maxIter fuel (nextHist llm tools hist)).history,
          err := (execLoop llm tools maxIter fuel (nextHist llm tools hist)).err }) := rfl

theorem execLoop_toolcall_step (llm : List UnifiedMessage → List ExtChunk × Option String)
    (tools : List ToolM) (maxIter fuel : Nat) (hist : List UnifiedMessage)
    (h1 : (iterationAcc llm hist).hasToolCalls = true)
    (h2 : (llm hist).2 = none ∨ (iterationAcc llm hist).completedChunk.isSome = true) :
    execLoop llm tools maxIter (fuel + 1) hist =
      { emitted := (iterationAcc llm hist).forwarded ++
          (runToolCalls tools (iterationAcc llm hist).toolCalls).1 ++
          (execLoop llm tools maxIter fuel (nextHist llm tools hist)).emitted,
        modelCalls := (execLoop llm tools maxIter fuel (nextHist llm tools hist)).modelCalls + 1,
        history := (execLoop llm tools maxIter fuel (nextHist llm tools hist)).history,
        err := (execLoop llm tools maxIter fuel (nextHist llm tools hist)).err } := by
  have hc1 : ¬ ((iterationAcc llm hist).completedChunk.isNone = true ∧ ((llm hist).2).isSome = true) := by
    rintro ⟨hN, hS⟩
    rcases h2 with h | h
    · rw [h] at hS
      simp at hS
    · rw [Option.isNone_iff_eq_none] at hN
      rw [hN] at h
      simp at h
  have hc2 : ¬ ((iterationAcc llm hist).hasToolCalls = false) := by
    rw [h1]
    simp
  rw [execLoop_succ_eq, if_neg hc1, if_neg hc2]

theorem find?_none_of_all_ne (tools : List ToolM) (tc : ToolCall)
    (hmiss : ∀ t ∈ tools, ¬ t.name = tc.name) :
    tools.find? (fun t => t.name == tc.name) = none := by
  rw [List.find?_eq_none]
  intro t ht
  simpa using hmiss t ht

/-- C7: a requested ToolCall whose name matches no configured tool under
exact comparison yields the not-found outcome — success false, error
"tool not found: name", carrying the call's id — with no side-channel
chunks; the tool loop still emits the tool-executing and tool-result
chunks for it; and the chat loop proceeds to the next model iteration (the
error return and model-call count of the turn are those of the remaining
iterations, not a termination at this call). -/
theorem tool_not_found (tools : List ToolM) (tc : ToolCall)
    (hmiss : ∀ t ∈ tools, ¬ t.name = tc.name) :
    executeTool tools tc =
      ([], { toolCallID := tc.id, toolName := tc.name, success := false, result := "",
             error := "tool not found: " ++ tc.name }) ∧
    (∀ rest, (runToolCalls tools (tc :: rest)).1 =
      [toolExecutingChunk tc, toolResultChunk (executeTool tools tc).2] ++
        (runToolCalls tools rest).1) ∧
    (∀ llm maxIter fuel hist,
      (iterationAcc llm hist).hasToolCalls = true →
      ((llm hist).2 = none ∨ (iterationAcc llm hist).completedChunk.isSome = true) →
      (execLoop llm tools maxIter (fuel + 1) hist).err =
        (execLoop llm tools maxIter fuel (nextHist llm tools hist)).err ∧
      (execLoop llm tools maxIter (fuel + 1) hist).modelCalls =
        (execLoop llm tools maxIter fuel (nextHist llm tools hist)).modelCalls + 1) := by
  have hfind := find?_none_of_all_ne tools tc hmiss
  refine ⟨?_, ?_, ?_⟩
  · simp [executeTool, hfind]
  · intro rest
    simp [runToolCalls, executeTool, hfind]
  · intro llm maxIter fuel hist h1 h2
    rw [execLoop_toolcall_step llm tools maxIter fuel hist h1 h2]
    exact ⟨rfl, rfl⟩

theorem executeTool_toolCallID (tools : List ToolM) (tc : ToolCall) :
    (executeTool tools tc).2.toolCallID = tc.id := by
  unfold executeTool
  cases hfind : tools.find? (fun t => t.name == tc.name) <;> rfl

theorem runToolCalls_msgs (tools : List ToolM) :
    ∀ calls : List ToolCall, (runToolCalls tools calls).2 =
      calls.map (fun tc => ToolMessage tc.id (executeTool tools tc).2.result) := by
  intro calls
  induction calls with
  | nil => rfl
  | cons tc rest ih => simp [runToolCalls, ih]

theorem runToolCalls_take (tools : List ToolM) :
    ∀ (calls : List ToolCall) (k : Nat),
      (runToolCalls tools (calls.take k)).2 = ((runToolCalls tools calls).2).take k := by
  intro calls
  induction calls with
  | nil =>
    intro k
    simp [runToolCalls]
  | cons tc rest ih =>
    intro k
    cases k with
    | zero => simp [runToolCalls]
    | succ n => simp [runToolCalls, ih n]

theorem consumeChunks_forwarded_mem :
    ∀ (cs : List ExtChunk) (acc : StreamAcc) (c : ExtChunk),
      c ∈ (consumeChunks cs acc).forwarded →
      c ∈ acc.forwarded ∨ (c ∈ cs ∧ ¬ c.status = StatusCompleted) := by
  intro cs
  induction cs with
  | nil =>
    intro acc c hc
    exact Or.inl hc
  | cons d rest ih =>
    intro acc c hc
    simp only [consumeChunks] at hc
    by_cases hds : d.status = StatusCompleted
    · rw [if_pos hds] at hc
      exact Or.inl hc
    · rw [if_neg hds] at hc
      rcases ih _ c hc with h1 | h2
      · rcases List.mem_append.mp h1 with ha | hd
        · exact Or.inl ha
        · simp only [List.mem_singleton] at hd
          subst hd
          exact Or.inr ⟨List.mem_cons_self c rest, hds⟩
      · exact Or.inr ⟨List.mem_cons_of_mem d h2.1, h2.2⟩

theorem executeTool_emitted_from_tools (tools : List ToolM) (tc : ToolCall) :
    ∀ c ∈ (executeTool tools tc).1, ∃ t ∈ tools, ∃ args, c ∈ (t.call args).1 := by
  intro c hc
  unfold executeTool at hc
  cases hfind : tools.find? (fun t => t.name == tc.name) with
  | none =>
    rw [hfind] at hc
    simp at hc
  | some t =>
    rw [hfind] at hc
    exact ⟨t, List.mem_of_find?_eq_some hfind, tc.arguments, hc⟩

theorem runToolCalls_chunk_cases (tools : List ToolM) :
    ∀ (calls : List ToolCall) (c : ExtChunk), c ∈ (runToolCalls tools calls).1 →
      (∃ tc, c = toolExecutingChunk tc) ∨
      (∃ tc, c = toolResultChunk (executeTool tools tc).2) ∨
      (∃ t ∈ tools, ∃ args, c ∈ (t.call args).1) := by
  intro calls
  induction calls with
  | nil =>
    intro c hc
    simp [runToolCalls] at hc
  | cons tc rest ih =>
    intro c hc
    simp only [runToolCalls, List.mem_append, List.mem_cons, List.mem_singleton,
      List.not_mem_nil, or_false] at hc
    rcases hc with ((h1 | h2) | h3) | h4
    · exact Or.inl ⟨tc, h1⟩
    · exact Or.inr (Or.inr (executeTool_emitted_from_tools tools tc c h2))
    · exact Or.inr (Or.inl ⟨tc, h3⟩)
    · exact ih c h4

theorem runToolCalls_filter (tools : List ToolM) (calls : List ToolCall)
    (hside : ∀ t ∈ tools, ∀ args, ∀ c ∈ (t.call args).1,
      ¬ c.status = StatusToolExecuting ∧ ¬ c.status = StatusToolResult) :
    ((runToolCalls tools calls).1.filter (fun c => c.status == StatusToolExecuting)) =
      calls.map toolExecutingChunk ∧
    ((runToolCalls tools calls).1.filter (fun c => c.status == StatusToolResult)) =
      calls.map (fun tc => toolResultChunk (executeTool tools tc).2) := by
  induction calls with
  | nil => exact ⟨rfl, rfl⟩
  | cons tc rest ih =>
    have hem : ∀ c ∈ (executeTool tools tc).1,
        ¬ c.status = StatusToolExecuting ∧ ¬ c.status = StatusToolResult := by
      intro c hc
      obtain ⟨t, ht, args, hca⟩ := executeTool_emitted_from_tools tools tc c hc
      exact hside t ht args c hca
    have hfe : List.filter (fun c => c.status == StatusToolExecuting) (executeTool tools tc).1 = [] := by
      rw [List.filter_eq_nil_iff]
      intro c hc
      simp [(hem c hc).1]
    have hfr : List.filter (fun c => c.status == StatusToolResult) (executeTool tools tc).1 = [] := by
      rw [List.filter_eq_nil_iff]
      intro c hc
      simp [(hem c hc).2]
    have hee : ((toolExecutingChunk tc).status == StatusToolExecuting) = true := rfl
    have her : ((toolExecutingChunk tc).status == StatusToolResult) = false := rfl
    have hre : ((toolResultChunk (executeTool tools tc).2).status == StatusToolExecuting) = false := rfl
    have hrr : ((toolResultChunk (executeTool tools tc).2).status == StatusToolResult) = true := rfl
    constructor
    · simp [runToolCalls, List.filter_append, List.filter_cons, hee, hre, hfe, ih.1]
    · simp [runToolCalls, List.filter_append, List.filter_cons, her, hrr, hfr, ih.2]

/-- C6: in an iteration whose model response requests the calls `calls`,
the tool loop emits exactly one tool-executing and one tool-result event
per call, in request order (stated via the filtered subsequences of the
emitted chunks, which equal the corresponding maps over `calls` whenever
the tools' own side-channel chunks do not reuse these two statuses); the
i-th tool-executing event carries the i-th call, whose id equals the
ToolCallID of the outcome in the i-th tool-result event; and one tool
message per outcome is appended to history immediately after that outcome:
the appended messages are exactly the per-call tool messages, and the
history appended after the first k calls is the k-prefix of them. -/
theorem tool_loop_events (tools : List ToolM) (calls : List ToolCall)
    (hside : ∀ t ∈ tools, ∀ args, ∀ c ∈ (t.call args).1,
      ¬ c.status = StatusToolExecuting ∧ ¬ c.status = StatusToolResult) :
    (((runToolCalls tools calls).1.filter (fun c => c.status == StatusToolExecuting)).length =
      calls.length) ∧
    (((runToolCalls tools calls).1.filter (fun c => c.status == StatusToolResult)).length =
      calls.length) ∧
    (∀ (i : Nat) (tc : ToolCall), calls[i]? = some tc →
      ((runToolCalls tools calls).1.filter (fun c => c.status == StatusToolExecuting))[i]? =
        some (toolExecutingChunk tc) ∧
      (toolExecutingChunk tc).toolExecuting = some tc ∧
      ((runToolCalls tools calls).1.filter (fun c => c.status == StatusToolResult))[i]? =
        some (toolResultChunk (executeTool tools tc).2) ∧
      (executeTool tools tc).2.toolCallID = tc.id) ∧
    ((runToolCalls tools calls).2 =
      calls.map (fun tc => ToolMessage tc.id (executeTool tools tc).2.result)) ∧
    (∀ k, (runToolCalls tools (calls.take k)).2 = ((runToolCalls tools calls).2).take k) := by
  obtain ⟨hfe, hfr⟩ := runToolCalls_filter tools calls hside
  refine ⟨by rw [hfe]; simp, by rw [hfr]; simp, ?_, runToolCalls_msgs tools calls,
    runToolCalls_take tools calls⟩
  intro i tc hi
  refine ⟨?_, rfl, ?_, executeTool_toolCallID tools tc⟩
  · rw [hfe, List.getElem?_map, hi]
    rfl
  · rw [hfr, List.getElem?_map, hi]
    rfl

theorem tool_loop_events_witness :
    ((runToolCalls [] [⟨"id1", "t", []⟩]).1.filter
      (fun c => c.status == StatusToolExecuting)).length = 1 ∧
    ((runToolCalls [] [⟨"id1", "t", []⟩]).1.filter
      (fun c => c.status == StatusToolResult)).length = 1 := by
  obtain ⟨h1, h2, _⟩ := tool_loop_events [] [⟨"id1", "t", []⟩] (by simp)
  exact ⟨h1, h2⟩

theorem execLoop_err_no_completed (llm : List UnifiedMessage → List ExtChunk × Option String)
    (tools : List ToolM) (maxIter : Nat)
    (htools : ∀ t ∈ tools, ∀ args, ∀ c ∈ (t.call args).1, ¬ c.status = StatusCompleted) :
    ∀ (fuel : Nat) (hist : List UnifiedMessage), ∀ c ∈ (execLoop llm tools maxIter fuel hist).emitted,
      (execLoop llm tools maxIter fuel hist).err.isSome = true →
      ¬ c.status = StatusCompleted := by
  intro fuel
  induction fuel with
  | zero =>
    intro hist c hc _
    simp [execLoop] at hc
  | succ n ih =>
    intro hist c
    rw [execLoop_succ_eq]
    split
    · intro hc _
      rcases consumeChunks_forwarded_mem (llm hist).1 {} c hc with h | h
      · simp at h
      · exact h.2
    · split
      · split
        · intro _ herr2
          simp at herr2
        · intro _ herr2
          simp at herr2
      · intro hc herr2
        rcases List.mem_append.mp hc with h12 | h3
        · rcases List.mem_append.mp h12 with h1 | h2
          · rcases consumeChunks_forwarded_mem (llm hist).1 {} c h1 with h | h
            · simp at h
            · exact h.2
          · rcases runToolCalls_chunk_cases tools _ c h2 with ⟨tc, rfl⟩ | ⟨tc, rfl⟩ | ⟨t, ht, args, hca⟩
            · show ¬ ("tool-executing" : String) = "completed"
              decide
            · show ¬ ("tool-result" : String) = "completed"
              decide
            · exact htools t ht args c hca
        · exact ih _ c h3 herr2

/-- C1: for an LLM whose every response requests tool calls (and no
transport error occurs), the chat loop performs exactly `maxToolIterations`
model calls, returns the error "reached maximum tool iterations (N)", the
consumer stream's final event is that error event, and no completed event
is synthesized: when the configured tools emit no completed-status chunks,
no completed-status event appears anywhere in the stream's emitted
chunks. -/
theorem iteration_cap
    (llm : List UnifiedMessage → List ExtChunk × Option String)
    (tools : List ToolM) (maxIter : Nat) (hist0 : List UnifiedMessage)
    (hloop : ∀ hist, (iterationAcc llm hist).hasToolCalls = true)
    (herr : ∀ hist, (llm hist).2 = none) :
    (executeChatWithTools llm tools maxIter hist0).modelCalls = maxIter ∧
    (executeChatWithTools llm tools maxIter hist0).err = some (maxIterationsMsg maxIter) ∧
    (∀ agentName trace, ∃ pre,
      consumerStream agentName trace (executeChatWithTools llm tools maxIter hist0) =
        pre ++ [errorChunkOf (maxIterationsMsg maxIter) agentName trace]) ∧
    ((∀ t ∈ tools, ∀ args, ∀ c ∈ (t.call args).1, ¬ c.status = StatusCompleted) →
      ∀ c ∈ (executeChatWithTools llm tools maxIter hist0).emitted,
        ¬ c.status = StatusCompleted) := by
  have main : ∀ fuel hist, (execLoop llm tools maxIter fuel hist).modelCalls = fuel ∧
      (execLoop llm tools maxIter fuel hist).err = some (maxIterationsMsg maxIter) := by
    intro fuel
    induction fuel with
    | zero =>
      intro hist
      exact ⟨rfl, rfl⟩
    | succ n ih =>
      intro hist
      rw [execLoop_toolcall_step llm tools maxIter n hist (hloop hist) (Or.inl (herr hist))]
      exact ⟨by simp [(ih _).1], (ih _).2⟩
  refine ⟨(main maxIter hist0).1, (main maxIter hist0).2, ?_, ?_⟩
  · intro agentName trace
    refine ⟨(executeChatWithTools llm tools maxIter hist0).emitted.map
      (fillIdentity agentName trace), ?_⟩
    simp [consumerStream, executeChatWithTools, (main maxIter hist0).2]
  · intro htools c hc
    have hsome : (executeChatWithTools llm tools maxIter hist0).err.isSome = true := by
      show (execLoop llm tools maxIter maxIter hist0).err.isSome = true
      rw [(main maxIter hist0).2]
      rfl
    exact execLoop_err_no_completed llm tools maxIter htools maxIter hist0 c hc hsome

theorem iteration_cap_witness :
    (executeChatWithTools c1Llm [] 3 []).modelCalls = 3 ∧
    (executeChatWithTools c1Llm [] 3 []).err = some (maxIterationsMsg 3) := by
  obtain ⟨h1, h2, _, _⟩ := iteration_cap c1Llm [] 3 []
    (fun hist => rfl) (fun hist => rfl)
  exact ⟨h1, h2⟩

theorem tool_not_found_witness :
    executeTool [] ⟨"id1", "bogus", []⟩ =
      ([], { toolCallID := "id1", toolName := "bogus", success := false, result := "",
             error := "tool not found: bogus" }) :=
  (tool_not_found [] ⟨"id1", "bogus", []⟩ (by simp)).1

/-! ## History and system-prompt lemmas (claims C3 and C4) -/

theorem sysCount_nil : sysCount [] = 0 := rfl

theorem sysCount_append_nonsystem (l : List UnifiedMessage) (m : UnifiedMessage)
    (hm : ¬ m.role = MessageRole.system) : sysCount (l ++ [m]) = sysCount l := by
  simp [sysCount, List.countP_append, List.countP_cons, hm]

theorem systemInv_append (h : History) (m : UnifiedMessage)
    (hm : ¬ m.role = MessageRole.system) (hinv : systemInv h) :
    systemInv { h with history := h.history ++ [m] } := by
  rcases hinv with ⟨hf, hc⟩ | ⟨ht, mm, tail, heq, hrole, hcount⟩
  · left
    refine ⟨hf, ?_⟩
    show sysCount (h.history ++ [m]) = 0
    rw [sysCount_append_nonsystem _ _ hm, hc]
  · right
    refine ⟨ht, mm, tail ++ [m], ?_, hrole, ?_⟩
    · show h.history ++ [m] = mm :: (tail ++ [m])
      rw [heq]
      rfl
    · rw [sysCount_append_nonsystem _ _ hm, hcount]

theorem addSystemMessage_flag (h : History) (s : String) :
    (h.addSystemMessage s).hasSystemMessage = true := by
  unfold History.addSystemMessage
  split
  · rename_i hcond
    exact hcond
  · rfl

theorem systemInv_addSystemMessage (h : History) (s : String) (hinv : systemInv h) :
    systemInv (h.addSystemMessage s) := by
  unfold History.addSystemMessage
  split
  · exact hinv
  · rename_i hflag
    right
    refine ⟨rfl, SystemMessage s, h.history, rfl, rfl, ?_⟩
    rcases hinv with ⟨_, hc⟩ | ⟨ht, _⟩
    · exact hc
    · exact absurd ht hflag

theorem ensureHistory_history (a : Agent) :
    a.ensureHistory.history = some (a.history.getD {}) := by
  unfold Agent.ensureHistory
  cases hh : a.history <;> simp [hh]

theorem addSubAgents_history (a : Agent) : a.addSubAgents.history = a.history := by
  unfold Agent.addSubAgents
  split <;> rfl

theorem ensureSystemPrompt_history (a : Agent) :
    a.ensureSystemPrompt.history =
      some ((a.history.getD {}).addSystemMessage a.ensureSystemPrompt.systemPrompt) := by
  simp only [Agent.ensureSystemPrompt]
  rw [ensureHistory_history, Option.getD_some, addSubAgents_history]
  split <;> split <;> rfl

theorem handleSystemPromptInjection_history (a : Agent) :
    a.handleSystemPromptInjection.history =
      some (((a.history.getD {}).addSystemMessage
          (a.ensureHistory.ensureSystemPrompt).systemPrompt).addSystemMessage
        (a.ensureHistory.ensureSystemPrompt).systemPrompt) := by
  simp only [Agent.handleSystemPromptInjection]
  rw [ensureSystemPrompt_history, Option.getD_some, ensureHistory_history, Option.getD_some]

theorem agentInv_getD (a : Agent) (hinv : agentInv a) : systemInv (a.history.getD {}) := by
  unfold agentInv at hinv
  cases hh : a.history with
  | none => exact Or.inl ⟨rfl, rfl⟩
  | some h =>
    rw [hh] at hinv
    exact hinv

theorem handleSystemPromptInjection_props (a : Agent) (hinv : agentInv a) :
    ∃ hh, a.handleSystemPromptInjection.history = some hh ∧ systemInv hh ∧
      hh.hasSystemMessage = true := by
  refine ⟨_, handleSystemPromptInjection_history a, ?_, addSystemMessage_flag _ _⟩
  exact systemInv_addSystemMessage _ _ (systemInv_addSystemMessage _ _ (agentInv_getD a hinv))

theorem handleNewUserMessage_history (a : Agent) (s : String) :
    (a.handleNewUserMessage s).history = some ((a.history.getD {}).addUserMessage s) := by
  simp only [Agent.handleNewUserMessage]
  rw [ensureHistory_history, Option.getD_some]

theorem modifyHistory_history (a : Agent) (f : History → History) :
    (a.modifyHistory f).history = some (f (a.history.getD {})) := by
  simp only [Agent.modifyHistory]
  rw [ensureHistory_history, Option.getD_some]

theorem applyOp_props (a : Agent) (op : AgentOp) (hinv : agentInv a) :
    ∃ hh, (applyOp a op).history = some hh ∧ systemInv hh ∧
      (((∃ h0, a.history = some h0 ∧ h0.hasSystemMessage = true) ∨ op = AgentOp.ensurePrompt) →
        hh.hasSystemMessage = true) := by
  have hflagOf : (∃ h0, a.history = some h0 ∧ h0.hasSystemMessage = true) →
      (a.history.getD {}).hasSystemMessage = true := by
    rintro ⟨h0, heq, hf⟩
    rw [heq]
    exact hf
  cases op with
  | ensurePrompt =>
    obtain ⟨hh, h1, h2, h3⟩ := handleSystemPromptInjection_props a hinv
    exact ⟨hh, h1, h2, fun _ => h3⟩
  | userMsg s =>
    refine ⟨(a.history.getD {}).addUserMessage s, handleNewUserMessage_history a s,
      systemInv_append _ _ (by simp [UserMessage]) (agentInv_getD a hinv), ?_⟩
    rintro (hex | habs)
    · exact hflagOf hex
    · exact AgentOp.noConfusion habs
  | assistantMsg s p c t =>
    refine ⟨(a.history.getD {}).addAssistantMessage s p c t, modifyHistory_history a _,
      systemInv_append _ _ (by simp [AssistantMessage]) (agentInv_getD a hinv), ?_⟩
    rintro (hex | habs)
    · exact hflagOf hex
    · exact AgentOp.noConfusion habs
  | assistantToolCalls s tcs p c t =>
    refine ⟨(a.history.getD {}).addAssistantMessageWithToolCalls s tcs p c t,
      modifyHistory_history a _,
      systemInv_append _ _ (by simp [AssistantMessageWithToolCalls]) (agentInv_getD a hinv), ?_⟩
    rintro (hex | habs)
    · exact hflagOf hex
    · exact AgentOp.noConfusion habs
  | toolMsg i r =>
    refine ⟨(a.history.getD {}).addToolMessage i r, modifyHistory_history a _,
      systemInv_append _ _ (by simp [ToolMessage]) (agentInv_getD a hinv), ?_⟩
    rintro (hex | habs)
    · exact hflagOf hex
    · exact AgentOp.noConfusion habs

theorem applyOps_props :
    ∀ (ops : List AgentOp) (a : Agent), agentInv a →
      agentInv (applyOps a ops) ∧
      (((∃ h0, a.history = some h0 ∧ h0.hasSystemMessage = true) ∨
          AgentOp.ensurePrompt ∈ ops) →
        ∃ hh, (applyOps a ops).history = some hh ∧ hh.hasSystemMessage = true) := by
  intro ops
  induction ops with
  | nil =>
    intro a hinv
    refine ⟨hinv, ?_⟩
    rintro (⟨h0, heq, hf⟩ | hmem)
    · exact ⟨h0, heq, hf⟩
    · exact absurd hmem (List.not_mem_nil _)
  | cons op rest ih =>
    intro a hinv
    obtain ⟨hh, h1, h2, h3⟩ := applyOp_props a op hinv
    have hinv2 : agentInv (applyOp a op) := by
      unfold agentInv
      rw [h1]
      exact h2
    obtain ⟨ha, hb⟩ := ih (applyOp a op) hinv2
    refine ⟨ha, ?_⟩
    rintro (⟨h0, heq, hf⟩ | hmem)
    · exact hb (Or.inl ⟨hh, h1, h3 (Or.inl ⟨h0, heq, hf⟩)⟩)
    · rcases List.mem_cons.mp hmem with heqop | hmem2
      · exact hb (Or.inl ⟨hh, h1, h3 (Or.inr heqop.symm)⟩)
      · exact hb (Or.inr hmem2)

/-- C4: starting from a fresh Agent (no history yet and no persistence
reload), after any sequence of history operations that performs the
prompt-ensure step at least once — in particular after any number of
prompt-ensure calls, with any other message appends interleaved — the
history contains exactly one system message, and it sits at index 0. -/
theorem system_message_invariant (a : Agent) (ops : List AgentOp)
    (hfresh : a.history = none) (hmem : AgentOp.ensurePrompt ∈ ops) :
    ∃ hh m tail, (applyOps a ops).history = some hh ∧
      hh.history = m :: tail ∧ m.role = MessageRole.system ∧
      sysCount hh.history = 1 := by
  have hinv : agentInv a := by
    unfold agentInv
    rw [hfresh]
    trivial
  obtain ⟨ha, hb⟩ := applyOps_props ops a hinv
  obtain ⟨hh, h1, hflag⟩ := hb (Or.inr hmem)
  have hsys : systemInv hh := by
    unfold agentInv at ha
    rw [h1] at ha
    exact ha
  rcases hsys with ⟨hf, _⟩ | ⟨_, m, tail, heq, hrole, hcount⟩
  · rw [hflag] at hf
    exact absurd hf (by simp)
  · refine ⟨hh, m, tail, h1, heq, hrole, ?_⟩
    rw [heq]
    show List.countP (fun mm => mm.role == MessageRole.system) (m :: tail) = 1
    rw [List.countP_cons]
    have hm : (m.role == MessageRole.system) = true := by simp [hrole]
    have ht : List.countP (fun mm => mm.role == MessageRole.system) tail = 0 := hcount
    rw [hm, ht]
    simp

theorem mainAgentBoilerplate_ne_empty : ¬ mainAgentBoilerplate = "" := by
  intro h
  exact absurd (congrArg String.data h) (by decide)

theorem append_boilerplate_ne_empty (s : String) : ¬ (s ++ mainAgentBoilerplate) = "" := by
  intro h
  have hd := congrArg String.data h
  rw [String.data_append] at hd
  rcases List.append_eq_nil.mp hd with ⟨_, h2⟩
  exact mainAgentBoilerplate_ne_empty (String.ext h2)

theorem systemInv_flag_count (hh : History) (hsys : systemInv hh)
    (hflag : hh.hasSystemMessage = true) :
    sysCount hh.history = 1 := by
  rcases hsys with ⟨hf, _⟩ | ⟨_, m, tail, heq, hrole, hcount⟩
  · rw [hflag] at hf
    exact absurd hf (by simp)
  · rw [heq]
    show List.countP (fun mm => mm.role == MessageRole.system) (m :: tail) = 1
    rw [List.countP_cons]
    have hm : (m.role == MessageRole.system) = true := by simp [hrole]
    have ht : List.countP (fun mm => mm.role == MessageRole.system) tail = 0 := hcount
    rw [hm, ht]
    simp

theorem ensureSystemPrompt_main_fields (b : Agent)
    (hma : b.mainAgent = true) (hsa : b.subAgents = []) :
    b.ensureSystemPrompt.systemPrompt = b.systemPrompt ++ mainAgentBoilerplate ∧
    b.ensureSystemPrompt.mainAgent = true ∧
    b.ensureSystemPrompt.subAgents = [] := by
  unfold Agent.ensureSystemPrompt Agent.addSubAgents Agent.ensureHistory
  simp only [hma, if_true]
  rw [if_neg (append_boilerplate_ne_empty b.systemPrompt)]
  simp only [hsa, List.isEmpty_nil, if_true]
  cases hh : b.history <;> simp [hh, hma, hsa]

theorem ensureHistory_prompt_fields (a : Agent) :
    a.ensureHistory.systemPrompt = a.systemPrompt ∧
    a.ensureHistory.mainAgent = a.mainAgent ∧
    a.ensureHistory.subAgents = a.subAgents := by
  unfold Agent.ensureHistory
  cases hh : a.history <;> simp [hh]

theorem handleSystemPromptInjection_prompt (b : Agent)
    (hma : b.mainAgent = true) (hsa : b.subAgents = []) :
    b.handleSystemPromptInjection.systemPrompt = b.systemPrompt ++ mainAgentBoilerplate ∧
    b.handleSystemPromptInjection.mainAgent = true ∧
    b.handleSystemPromptInjection.subAgents = [] := by
  obtain ⟨e1, e2, e3⟩ := ensureHistory_prompt_fields b
  obtain ⟨p1, p2, p3⟩ := ensureSystemPrompt_main_fields b.ensureHistory
    (by rw [e2, hma]) (by rw [e3, hsa])
  refine ⟨?_, p2, p3⟩
  show (b.ensureHistory.ensureSystemPrompt).systemPrompt = b.systemPrompt ++ mainAgentBoilerplate
  rw [p1, e1]

/-- C3 (code bug): the prompt-ensure step is NOT idempotent on the same
Agent instance — on a main agent each invocation appends the main-agent
boilerplate to `systemPrompt` again, so a second invocation changes the
prompt (and `addSubAgents` likewise re-appends the sub-agent listing on
every call when sub-agents exist); only the history side is idempotent:
the system message's presence is checked, and after two invocations the
history still holds exactly one system message. -/
theorem prompt_ensure_not_idempotent :
    (c3Agent.handleSystemPromptInjection).systemPrompt =
      "You are a main agent" ++ mainAgentBoilerplate ∧
    (c3Agent.handleSystemPromptInjection.handleSystemPromptInjection).systemPrompt =
      ("You are a main agent" ++ mainAgentBoilerplate) ++ mainAgentBoilerplate ∧
    ¬ ((c3Agent.handleSystemPromptInjection.handleSystemPromptInjection).systemPrompt =
        (c3Agent.handleSystemPromptInjection).systemPrompt) ∧
    sysCount ((c3Agent.handleSystemPromptInjection.handleSystemPromptInjection).history.getD
        {}).history = 1 := by
  obtain ⟨q1, q2, q3⟩ := handleSystemPromptInjection_prompt c3Agent rfl rfl
  obtain ⟨r1, r2, r3⟩ := handleSystemPromptInjection_prompt c3Agent.handleSystemPromptInjection q2 q3
  refine ⟨q1, by rw [r1, q1]; rfl, ?_, ?_⟩
  · rw [r1]
    exact string_append_ne_self _ _ mainAgentBoilerplate_ne_empty
  · have hinv0 : agentInv c3Agent := by
      unfold agentInv
      rw [show c3Agent.history = none from rfl]
      trivial
    obtain ⟨hh1, h11, h12, h13⟩ := handleSystemPromptInjection_props c3Agent hinv0
    have hinv1 : agentInv c3Agent.handleSystemPromptInjection := by
      unfold agentInv
      rw [h11]
      exact h12
    obtain ⟨hh2, h21, h22, h23⟩ := handleSystemPromptInjection_props _ hinv1
    rw [h21]
    exact systemInv_flag_count hh2 h22 h23

theorem system_message_invariant_witness :
    ∃ hh m tail,
      (applyOps c3Agent [AgentOp.ensurePrompt, AgentOp.userMsg "hello"]).history = some hh ∧
      hh.history = m :: tail ∧ m.role = MessageRole.system ∧
      sysCount hh.history = 1 :=
  system_message_invariant c3Agent [AgentOp.ensurePrompt, AgentOp.userMsg "hello"] rfl
    (List.mem_cons_self _ _)

/-! ## Delegation lemmas (claims C2 and C8) -/

theorem delegateDrain_data :
    ∀ (cs : List ExtChunk) (acc : String) (derr : Option String),
      (delegateDrain cs acc derr).1 = acc ++ concatContents cs := by
  intro cs
  induction cs with
  | nil =>
    intro acc derr
    simp [delegateDrain, concatContents, String.append_empty]
  | cons c rest ih =>
    intro acc derr
    simp only [delegateDrain]
    by_cases hc : c.content = ""
    · rw [if_neg (by simp [hc]), ih]
      simp [concatContents, hc]
    · rw [if_pos hc, ih]
      simp [concatContents, String.append_assoc]

theorem delegateDrain_err_mono :
    ∀ (cs : List ExtChunk) (acc : String) (derr : Option String),
      derr.isSome = true → ((delegateDrain cs acc derr).2).isSome = true := by
  intro cs
  induction cs with
  | nil =>
    intro acc derr h
    exact h
  | cons c rest ih =>
    intro acc derr h
    simp only [delegateDrain]
    by_cases hs : c.status = StatusError
    · exact ih _ _ (by simp [hs])
    · exact ih _ _ (by simp [hs, h])

theorem delegateDrain_err_of_clean :
    ∀ (cs : List ExtChunk) (acc : String) (derr : Option String),
      (∀ c ∈ cs, ¬ c.status = StatusError) → (delegateDrain cs acc derr).2 = derr := by
  intro cs
  induction cs with
  | nil =>
    intro acc derr _
    rfl
  | cons c rest ih =>
    intro acc derr h
    simp only [delegateDrain]
    rw [if_neg (h c (List.mem_cons_self c rest))]
    exact ih _ _ (fun d hd => h d (List.mem_cons_of_mem c hd))

theorem delegateDrain_err_isSome :
    ∀ (cs : List ExtChunk) (acc : String) (derr : Option String) (c : ExtChunk),
      c ∈ cs → c.status = StatusError → ((delegateDrain cs acc derr).2).isSome = true := by
  intro cs
  induction cs with
  | nil =>
    intro acc derr c hc
    exact absurd hc (List.not_mem_nil c)
  | cons d rest ih =>
    intro acc derr c hc hs
    rcases List.mem_cons.mp hc with rfl | hc'
    · simp only [delegateDrain]
      rw [if_pos hs]
      exact delegateDrain_err_mono rest _ _ rfl
    · simp only [delegateDrain]
      by_cases hd : d.status = StatusError
      · rw [if_pos hd]
        exact delegateDrain_err_mono rest _ _ rfl
      · rw [if_neg hd]
        exact ih _ _ c hc' hs

theorem concatContents_eq_spec :
    ∀ cs : List ExtChunk,
      (∀ c ∈ cs, ¬ (c.status = StatusStreaming ∧ c.type_ = TypeContent) → c.content = "") →
      concatContents cs = specContentDeltaConcat cs := by
  intro cs
  induction cs with
  | nil =>
    intro _
    rfl
  | cons c rest ih =>
    intro h
    simp only [concatContents, specContentDeltaConcat]
    rw [ih (fun d hd => h d (List.mem_cons_of_mem c hd))]
    by_cases hcd : c.status = StatusStreaming ∧ c.type_ = TypeContent
    · rw [if_pos hcd]
    · rw [if_neg hcd, h c (List.mem_cons_self c rest) hcd]

/-- C2 (amended): a delegation that drains the child's stream returns as
`result` the concatenation, in order, of the `Content` field of EVERY chunk
received from the child — which equals the concatenation of the
content-deltas whenever every non-content-delta chunk carries empty
content.  If the child emitted no error-status chunk the outcome is the
success outcome with that text; if a delegation error was recorded (the
"delegation error: <content>" of the last error chunk, whose content is
itself part of the accumulated text) the outcome is the failure outcome
carrying that error and the accumulated text. -/
theorem delegate_accumulation (subAgents : List SubAgentM) (args : List (String × GoValue))
    (sa : SubAgentM)
    (hfound : subAgents.find? (fun s => s.name == argString args "subAgent") = some sa) :
    ((delegateHandler subAgents args).2.data =
      concatContents (sa.chatStream (argString args "message"))) ∧
    ((∀ c ∈ sa.chatStream (argString args "message"), ¬ c.status = StatusError) →
      (delegateHandler subAgents args).2 =
        NewSuccessResponse (concatContents (sa.chatStream (argString args "message")))) ∧
    (∀ e, (delegateDrain (sa.chatStream (argString args "message")) "" none).2 = some e →
      (delegateHandler subAgents args).2 =
        NewFailureResponse e (concatContents (sa.chatStream (argString args "message")))) ∧
    (∀ c ∈ sa.chatStream (argString args "message"), c.status = StatusError →
      (delegateHandler subAgents args).2.success = false) ∧
    ((∀ c ∈ sa.chatStream (argString args "message"),
        ¬ (c.status = StatusStreaming ∧ c.type_ = TypeContent) → c.content = "") →
      concatContents (sa.chatStream (argString args "message")) =
        specContentDeltaConcat (sa.chatStream (argString args "message"))) := by
  have hdata := delegateDrain_data (sa.chatStream (argString args "message")) "" none
  refine ⟨?_, ?_, ?_, ?_, concatContents_eq_spec _⟩
  · simp only [delegateHandler, hfound]
    cases hd : (delegateDrain (sa.chatStream (argString args "message")) "" none).2 with
    | some e => simp [hd, NewFailureResponse, hdata]
    | none => simp [hd, NewSuccessResponse, hdata]
  · intro hclean
    have hnone := delegateDrain_err_of_clean (sa.chatStream (argString args "message")) "" none hclean
    simp only [delegateHandler, hfound]
    simp [hnone, hdata]
  · intro e he
    simp only [delegateHandler, hfound]
    simp [he, hdata]
  · intro c hc hs
    have hsome := delegateDrain_err_isSome (sa.chatStream (argString args "message")) "" none c hc hs
    simp only [delegateHandler, hfound]
    cases hd : (delegateDrain (sa.chatStream (argString args "message")) "" none).2 with
    | some e => simp [hd, NewFailureResponse]
    | none =>
      rw [hd] at hsome
      simp at hsome

/-- C2 counterexample: a child stream consisting of the content-delta "hi"
followed by a terminal error chunk with content "boom" makes the delegate
outcome's result "hiboom" — the error chunk's content is accumulated too —
while the concatenation of the content-deltas alone is "hi": the claim's
equality fails on this delegation. -/
theorem delegate_accumulation_counterexample :
    (delegateHandler [c2Child] c2Args).2 =
      NewFailureResponse "delegation error: boom" "hiboom" ∧
    specContentDeltaConcat c2ChildChunks = "hi" ∧
    ¬ (delegateHandler [c2Child] c2Args).2.data =
      specContentDeltaConcat c2ChildChunks := by
  refine ⟨by decide, by decide, by decide⟩

theorem delegate_accumulation_witness :
    (delegateHandler [c2Child] c2Args).2.data =
      concatContents (c2Child.chatStream (argString c2Args "message")) :=
  (delegate_accumulation [c2Child] c2Args c2Child rfl).1

/-- C8: every chunk relayed during delegation is re-emitted verbatim — the
delegate handler forwards the child's chunk list unchanged between the two
delegation marker chunks — and the consuming stream's identity-filling
step sets the agent-name and trace fields only when they are empty,
leaving every other field untouched, so a chunk already carrying the
originating leaf agent's identity keeps it through any chain of
delegation fills. -/
theorem delegation_forwarding_identity (agentName trace : String) (c : ExtChunk) :
    ((fillIdentity agentName trace c).content = c.content ∧
     (fillIdentity agentName trace c).delta = c.delta ∧
     (fillIdentity agentName trace c).fullContent = c.fullContent ∧
     (fillIdentity agentName trace c).status = c.status ∧
     (fillIdentity agentName trace c).type_ = c.type_ ∧
     (fillIdentity agentName trace c).toolCalls = c.toolCalls ∧
     (fillIdentity agentName trace c).toolExecuting = c.toolExecuting ∧
     (fillIdentity agentName trace c).toolResults = c.toolResults ∧
     (fillIdentity agentName trace c).promptTokens = c.promptTokens ∧
     (fillIdentity agentName trace c).completionTokens = c.completionTokens ∧
     (fillIdentity agentName trace c).totalTokens = c.totalTokens) ∧
    ((fillIdentity agentName trace c).agentName =
      if c.agentName = "" then agentName else c.agentName) ∧
    ((fillIdentity agentName trace c).trace = if c.trace = "" then trace else c.trace) ∧
    (¬ c.agentName = "" → ¬ c.trace = "" → fillIdentity agentName trace c = c) ∧
    (∀ (subAgents : List SubAgentM) (args : List (String × GoValue)) (sa : SubAgentM),
      subAgents.find? (fun s => s.name == argString args "subAgent") = some sa →
      (delegateHandler subAgents args).1 =
        [delegateStartChunk (argString args "subAgent")] ++
          sa.chatStream (argString args "message") ++
          [delegateEndChunk (argString args "subAgent")]) ∧
    (∀ ids : List (String × String), ¬ c.agentName = "" → ¬ c.trace = "" →
      ids.foldl (fun ch p => fillIdentity p.1 p.2 ch) c = c) := by
  have hfix : ∀ an tr : String, ¬ c.agentName = "" → ¬ c.trace = "" →
      fillIdentity an tr c = c := by
    intro an tr h1 h2
    simp [fillIdentity, h1, h2]
  refine ⟨⟨rfl, rfl, rfl, rfl, rfl, rfl, rfl, rfl, rfl, rfl, rfl⟩, rfl, rfl, hfix agentName trace,
    ?_, ?_⟩
  · intro subAgents args sa hfound
    simp only [delegateHandler, hfound]
    cases hd : (delegateDrain (sa.chatStream (argString args "message")) "" none).2 with
    | some e => simp [hd]
    | none => simp [hd]
  · intro ids h1 h2
    induction ids with
    | nil => rfl
    | cons p ps ih =>
      simp only [List.foldl_cons]
      rw [hfix p.1 p.2 h1 h2]
      exact ih

theorem validation_missing_required_witness :
    ∃ e, validateAndExtractArgs
        (([] : List Parameter) ++
          ({ name := "x", type_ := "string", required := true } : Parameter) :: []) [] [] =
        .error e ∧ e.success = false := by
  obtain ⟨⟨e, he, hsucc, _⟩, _, _⟩ :=
    validation_missing_required [] [] { name := "x", type_ := "string", required := true } []
      rfl rfl
  exact ⟨e, he, hsucc⟩

/-! ## Terminal-event lemmas (claim C9) -/

theorem engineView_withHistory (b : Agent) (h : Option History) :
    engineView { b with history := h } = engineView b := rfl

theorem engineView_ensureHistory (b : Agent) :
    engineView b.ensureHistory = engineView b := by
  unfold Agent.ensureHistory
  cases hh : b.history <;> rfl

theorem engineView_addSubAgents (b : Agent) :
    engineView b.addSubAgents = engineView b := by
  unfold Agent.addSubAgents
  split <;> rfl

theorem engineView_ensureSystemPrompt (b : Agent) :
    engineView b.ensureSystemPrompt = engineView b := by
  unfold Agent.ensureSystemPrompt
  rw [engineView_withHistory, engineView_ensureHistory, engineView_addSubAgents]
  split <;> split <;> rfl

theorem engineView_setup (a : Agent) (msg : String) :
    engineView ((a.handleSystemPromptInjection).handleNewUserMessage msg) = engineView a := by
  unfold Agent.handleNewUserMessage Agent.handleSystemPromptInjection
  rw [engineView_withHistory, engineView_ensureHistory, engineView_withHistory,
    engineView_ensureSystemPrompt, engineView_ensureHistory]

theorem chatStream_setup_fields (a : Agent) (msg : String) :
    ((a.handleSystemPromptInjection).handleNewUserMessage msg).agentName = a.agentName ∧
    ((a.handleSystemPromptInjection).handleNewUserMessage msg).trace = a.trace ∧
    ((a.handleSystemPromptInjection).handleNewUserMessage msg).tools = a.tools ∧
    ((a.handleSystemPromptInjection).handleNewUserMessage msg).maxToolIterations =
      a.maxToolIterations ∧
    ((a.handleSystemPromptInjection).handleNewUserMessage msg).llmEngine = a.llmEngine := by
  have h := engineView_setup a msg
  exact ⟨congrArg (fun v => v.1) h, congrArg (fun v => v.2.1) h,
    congrArg (fun v => v.2.2.1) h, congrArg (fun v => v.2.2.2.1) h,
    congrArg (fun v => v.2.2.2.2) h⟩

theorem execLoop_terminal_shape (llm : List UnifiedMessage → List ExtChunk × Option String)
    (tools : List ToolM) (maxIter : Nat)
    (htools : ∀ t ∈ tools, ∀ args, ∀ c ∈ (t.call args).1, isTerminal c = false)
    (hllm : ∀ hist, ∀ c ∈ (llm hist).1, ¬ c.status = StatusError) :
    ∀ (fuel : Nat) (hist : List UnifiedMessage),
      (∀ c ∈ (execLoop llm tools maxIter fuel hist).emitted, isTerminal c = false) ∨
      (∃ body cc, (execLoop llm tools maxIter fuel hist).emitted = body ++ [cc] ∧
        (∀ c ∈ body, isTerminal c = false) ∧
        (execLoop llm tools maxIter fuel hist).err = none) := by
  intro fuel
  induction fuel with
  | zero =>
    intro hist
    left
    intro c hc
    simp [execLoop] at hc
  | succ n ih =>
    intro hist
    have hfw : ∀ c ∈ (iterationAcc llm hist).forwarded, isTerminal c = false := by
      intro c hc
      rcases consumeChunks_forwarded_mem (llm hist).1 {} c hc with h | ⟨hmem, hnc⟩
      · simp at h
      · simp [isTerminal, hnc, hllm hist c hmem]
    have htk : ∀ c ∈ (runToolCalls tools (iterationAcc llm hist).toolCalls).1,
        isTerminal c = false := by
      intro c hc
      rcases runToolCalls_chunk_cases tools _ c hc with ⟨tc, rfl⟩ | ⟨tc, rfl⟩ | ⟨t, ht, args, hca⟩
      · rfl
      · rfl
      · exact htools t ht args c hca
    rw [execLoop_succ_eq]
    split
    · left
      intro c hc
      exact hfw c hc
    · split
      · split
        · right
          exact ⟨_, _, rfl, hfw, rfl⟩
        · left
          intro c hc
          exact hfw c hc
      · rcases ih (nextHist llm tools hist) with hrest | ⟨body, cc, heq, hbody, herrnone⟩
        · left
          intro c hc
          rcases List.mem_append.mp hc with h12 | h3
          · rcases List.mem_append.mp h12 with h1 | h2
            · exact hfw c h1
            · exact htk c h2
          · exact hrest c h3
        · right
          refine ⟨(iterationAcc llm hist).forwarded ++
            (runToolCalls tools (iterationAcc llm hist).toolCalls).1 ++ body, cc, ?_, ?_, herrnone⟩
          · show (iterationAcc llm hist).forwarded ++
                (runToolCalls tools (iterationAcc llm hist).toolCalls).1 ++
                (execLoop llm tools maxIter n (nextHist llm tools hist)).emitted = _
            rw [heq]
            simp [List.append_assoc]
          · intro c hc
            rcases List.mem_append.mp hc with h12 | h3
            · rcases List.mem_append.mp h12 with h1 | h2
              · exact hfw c h1
              · exact htk c h2
            · exact hbody c h3

theorem consumerStream_terminalOnlyLast (llm : List UnifiedMessage → List ExtChunk × Option String)
    (tools : List ToolM) (maxIter : Nat)
    (htools : ∀ t ∈ tools, ∀ args, ∀ c ∈ (t.call args).1, isTerminal c = false)
    (hllm : ∀ hist, ∀ c ∈ (llm hist).1, ¬ c.status = StatusError)
    (hist0 : List UnifiedMessage) (an tr : String) :
    terminalOnlyLast (consumerStream an tr (executeChatWithTools llm tools maxIter hist0)) = true := by
  have hfillT : ∀ c, isTerminal (fillIdentity an tr c) = isTerminal c := fun c => rfl
  unfold terminalOnlyLast consumerStream executeChatWithTools
  rcases execLoop_terminal_shape llm tools maxIter htools hllm maxIter hist0 with
    hall | ⟨body, cc, heq, hbody, herrnone⟩
  · cases herr : (execLoop llm tools maxIter maxIter hist0).err with
    | some e =>
      simp only [herr, List.dropLast_concat, List.all_eq_true]
      intro c hc
      obtain ⟨c0, hc0, rfl⟩ := List.mem_map.mp hc
      simp [hfillT, hall c0 hc0]
    | none =>
      simp only [herr, List.append_nil, List.all_eq_true]
      intro c hc
      have hc2 : c ∈ ((execLoop llm tools maxIter maxIter hist0).emitted).map
          (fillIdentity an tr) := (List.dropLast_sublist _).subset hc
      obtain ⟨c0, hc0, rfl⟩ := List.mem_map.mp hc2
      simp [hfillT, hall c0 hc0]
  · simp only [herrnone, List.append_nil, heq, List.map_append, List.map_cons, List.map_nil,
      List.dropLast_concat, List.all_eq_true]
    intro c hc
    obtain ⟨c0, hc0, rfl⟩ := List.mem_map.mp hc
    simp [hfillT, hbody c0 hc0]

/-- C9 (amended): the stream of one ChatStream/Run invocation delivers at
most one terminal event ORIGINATED BY THE INVOCATION ITSELF, always as its
final event, after which the channel closes: whenever the configured tools
inject no terminal-status chunks into the side channel and the LLM engine
sends no error-status chunks on its response channel, every event before
the stream's last one is non-terminal.  (Delegation violates the unrestricted
claim: the delegate tool forwards the child's own terminal completed event
into the parent stream mid-turn.) -/
theorem terminal_event_last (a : Agent) (message : String)
    (htools : ∀ t ∈ a.tools, ∀ args, ∀ c ∈ (t.call args).1, isTerminal c = false)
    (hllm : ∀ hist, ∀ c ∈ (a.llmEngine hist).1, ¬ c.status = StatusError) :
    terminalOnlyLast (a.chatStreamEvents message) = true := by
  obtain ⟨f1, f2, f3, f4, f5⟩ := chatStream_setup_fields a message
  show terminalOnlyLast (consumerStream ((a.handleSystemPromptInjection).handleNewUserMessage
      message).agentName ((a.handleSystemPromptInjection).handleNewUserMessage message).trace
    (executeChatWithTools ((a.handleSystemPromptInjection).handleNewUserMessage message).llmEngine
      ((a.handleSystemPromptInjection).handleNewUserMessage message).tools
      ((a.handleSystemPromptInjection).handleNewUserMessage message).maxToolIterations
      ((a.handleSystemPromptInjection).handleNewUserMessage message).hist)) = true
  rw [f3, f4, f5]
  exact consumerStream_terminalOnlyLast a.llmEngine a.tools a.maxToolIterations htools hllm _ _ _

/-- C9 counterexample: a parent agent that delegates to a sub-agent relays
the child's completed event into its own stream before its own completion:
the stream of one ChatStream invocation contains a terminal (completed)
event that is not its last event, falsifying the unrestricted single-
terminal-event claim. -/
theorem terminal_event_last_counterexample :
    terminalOnlyLast (c9Agent.chatStreamEvents "go") = false := by decide

theorem terminal_event_last_witness :
    terminalOnlyLast (c9WitnessAgent.chatStreamEvents "hi") = true :=
  terminal_event_last c9WitnessAgent "hi" (by simp [c9WitnessAgent])
    (fun hist c hc => by
      simp only [c9WitnessAgent, c1Llm, List.mem_singleton] at hc
      subst hc
      decide)

end AgentForge
